import Mathlib

/-!
# Crazy-Delivery forward renderer: pipeline state and frame algorithm

A shallow embedding of `source/common/material/pipeline-state.hpp` and
`source/common/systems/forward-renderer.cpp`.

* Floating-point scalars are taken as exact rationals.
* `glm` vectors and matrices are records; a `mat4` is stored by columns, as in `glm`.
* The graphics context is explicit: every OpenGL or collaborator call made by the code is an
  entry of a call trace (`GLCall`), and `GLContext` is the part of the context state that
  `PipelineState::setup` writes.
-/

namespace our

/-! ## glm vectors and matrices -/

/-- Exact stand-in for the `float` scalars of the source. -/
abbrev Scalar := ℚ

/-- The type `glm::vec3`. -/
structure Vec3 where
  x : Scalar
  y : Scalar
  z : Scalar
deriving DecidableEq, Repr

/-- The type `glm::vec4`. -/
structure Vec4 where
  x : Scalar
  y : Scalar
  z : Scalar
  w : Scalar
deriving DecidableEq, Repr

/-- The type `glm::mat4`, column-major: `c0 .. c3` are the four columns. -/
structure Mat4 where
  c0 : Vec4
  c1 : Vec4
  c2 : Vec4
  c3 : Vec4
deriving DecidableEq, Repr

/-- Constructor `glm::vec4(v, w)` from a `vec3` and a scalar. -/
def Vec4.ofVec3 (v : Vec3) (w : Scalar) : Vec4 := ⟨v.x, v.y, v.z, w⟩

/-- Conversion `glm::vec3(v)` of a `vec4`: the fourth component is dropped. -/
def Vec4.toVec3 (v : Vec4) : Vec3 := ⟨v.x, v.y, v.z⟩

/-- Component-wise sum of two `vec4`. -/
def Vec4.add (a b : Vec4) : Vec4 := ⟨a.x + b.x, a.y + b.y, a.z + b.z, a.w + b.w⟩

/-- Product of a `vec4` by a scalar. -/
def Vec4.scale (a : Vec4) (s : Scalar) : Vec4 := ⟨a.x * s, a.y * s, a.z * s, a.w * s⟩

/-- Function `glm::dot` on `vec4`. -/
def Vec4.dot (a b : Vec4) : Scalar := a.x * b.x + a.y * b.y + a.z * b.z + a.w * b.w

/-- Product `m * v` of a `mat4` by a `vec4`: the combination of the columns of `m`. -/
def Mat4.mulVec (m : Mat4) (v : Vec4) : Vec4 :=
  (((m.c0.scale v.x).add (m.c1.scale v.y)).add (m.c2.scale v.z)).add (m.c3.scale v.w)

/-- Product `a * b` of two `mat4`: column `i` is `a * b[i]`. -/
def Mat4.mul (a b : Mat4) : Mat4 :=
  ⟨a.mulVec b.c0, a.mulVec b.c1, a.mulVec b.c2, a.mulVec b.c3⟩

/-- The matrix `glm::mat4(1.0f)`. -/
def Mat4.identity : Mat4 := ⟨⟨1, 0, 0, 0⟩, ⟨0, 1, 0, 0⟩, ⟨0, 0, 1, 0⟩, ⟨0, 0, 0, 1⟩⟩

/-- Function `glm::translate(m, v)`: the last column becomes
`m[0] * v.x + m[1] * v.y + m[2] * v.z + m[3]`, the others are kept. -/
def Mat4.translate (m : Mat4) (v : Vec3) : Mat4 :=
  { m with c3 := (((m.c0.scale v.x).add (m.c1.scale v.y)).add (m.c2.scale v.z)).add m.c3 }

/-! ## OpenGL constants and the graphics context -/

/-- The type `GLenum`. -/
abbrev GLenum := Nat

def GL_FRONT : GLenum := 0x0404
def GL_BACK : GLenum := 0x0405
def GL_CCW : GLenum := 0x0901
def GL_LEQUAL : GLenum := 0x0203
def GL_FUNC_ADD : GLenum := 0x8006
def GL_SRC_ALPHA : GLenum := 0x0302
def GL_ONE_MINUS_SRC_ALPHA : GLenum := 0x0303
def GL_CULL_FACE : GLenum := 0x0B44
def GL_DEPTH_TEST : GLenum := 0x0B71
def GL_BLEND : GLenum := 0x0BE2
def GL_DRAW_FRAMEBUFFER : GLenum := 0x8CA9
def GL_DEPTH_BUFFER_BIT : Nat := 0x0100
def GL_COLOR_BUFFER_BIT : Nat := 0x4000
def GL_TRIANGLES : GLenum := 0x0004
def GL_VERTEX_SHADER : GLenum := 0x8B31
def GL_FRAGMENT_SHADER : GLenum := 0x8B30

/-- The type `glm::bvec4`. -/
structure BVec4 where
  r : Bool
  g : Bool
  b : Bool
  a : Bool
deriving DecidableEq, Repr

/-- The field `PipelineState::faceCulling`. -/
structure FaceCulling where
  enabled : Bool := false
  culledFace : GLenum := GL_BACK
  frontFace : GLenum := GL_CCW
deriving DecidableEq, Repr

/-- The field `PipelineState::depthTesting`. -/
structure DepthTesting where
  enabled : Bool := false
  function : GLenum := GL_LEQUAL
deriving DecidableEq, Repr

/-- The field `PipelineState::blending`. -/
structure Blending where
  enabled : Bool := false
  equation : GLenum := GL_FUNC_ADD
  sourceFactor : GLenum := GL_SRC_ALPHA
  destinationFactor : GLenum := GL_ONE_MINUS_SRC_ALPHA
  constantColor : Vec4 := ⟨0, 0, 0, 0⟩
deriving DecidableEq, Repr

/-- The struct `our::PipelineState`, with the defaults of the source. -/
structure PipelineState where
  faceCulling : FaceCulling := {}
  depthTesting : DepthTesting := {}
  blending : Blending := {}
  colorMask : BVec4 := ⟨true, true, true, true⟩
  depthMask : Bool := true
deriving DecidableEq, Repr

/-! ## Scene data model -/

/-- The type `glm::vec2`. -/
structure Vec2 where
  x : Scalar
  y : Scalar
deriving DecidableEq, Repr

/-- Modelled from the spec: the class `ShaderProgram` (shader.hpp is not among the sources), a
program identified by the shader files attached to it, in attachment order. -/
structure ShaderProgram where
  attached : List (String × GLenum) := []
deriving DecidableEq, Repr

/-- Modelled from the spec: the class `Mesh` (mesh.hpp is not among the sources), an immutable
geometry resource known by its handle. -/
structure Mesh where
  handle : Nat
deriving DecidableEq, Repr

/-- Modelled from the spec: the material classes (material.hpp is not among the sources). A
material owns a shader program, a `PipelineState`, a transparency flag, a tint, an alpha
threshold and, for textured ones, a texture and a sampler handle; `lit` tells whether
`dynamic_cast<LightMaterial *>` succeeds on it. -/
structure Material where
  shader : ShaderProgram := {}
  pipelineState : PipelineState := {}
  transparent : Bool := false
  lit : Bool := false
  tint : Vec4 := ⟨1, 1, 1, 1⟩
  alphaThreshold : Scalar := 0
  texture : Option Nat := none
  sampler : Option Nat := none
deriving DecidableEq, Repr

/-- Modelled from the spec: the class `CameraComponent` (camera.hpp is not among the sources):
`viewMatrix` is the value of `getViewMatrix()` and `projectionMatrix` the value of
`getProjectionMatrix(windowSize)` for the window size of the renderer. -/
structure CameraComponent where
  viewMatrix : Mat4
  projectionMatrix : Mat4
deriving DecidableEq, Repr

/-- Modelled from the spec: the class `MeshRendererComponent` (mesh-renderer.hpp is not among
the sources): a mesh and a material. -/
structure MeshRendererComponent where
  mesh : Mesh
  material : Material
deriving DecidableEq, Repr

/-- Modelled from the spec: the class `LightComponent` (light.hpp is not among the sources). -/
structure LightComponent where
  type : Nat
  direction : Vec3
  diffuse : Vec3
  specular : Vec3
  attenuation : Vec3
  cone_angles : Vec2
deriving DecidableEq, Repr

/-- Modelled from the spec: the class `Entity` (entity.hpp is not among the sources): the value
of `getLocalToWorldMatrix()` and the optional camera, mesh-renderer and light components that
`getComponent<T>()` returns (`none` for `nullptr`). -/
structure Entity where
  localToWorld : Mat4 := Mat4.identity
  camera : Option CameraComponent := none
  meshRenderer : Option MeshRendererComponent := none
  light : Option LightComponent := none
deriving DecidableEq, Repr

/-- A non-null component pointer: the component and the entity `getOwner()` returns. -/
structure ComponentRef (α : Type) where
  component : α
  owner : Entity
deriving DecidableEq, Repr

/-- Call `entity->getComponent<CameraComponent>()`. -/
def Entity.getCamera (e : Entity) : Option (ComponentRef CameraComponent) :=
  e.camera.map fun c => ⟨c, e⟩

/-- Call `entity->getComponent<MeshRendererComponent>()`. -/
def Entity.getMeshRenderer (e : Entity) : Option (ComponentRef MeshRendererComponent) :=
  e.meshRenderer.map fun c => ⟨c, e⟩

/-- Call `entity->getComponent<LightComponent>()`. -/
def Entity.getLight (e : Entity) : Option (ComponentRef LightComponent) :=
  e.light.map fun c => ⟨c, e⟩

/-- Modelled from the spec: the class `World` (world.hpp is not among the sources), seen through
`getEntities()`: its entities in traversal order. -/
abbrev World := List Entity

/-- The struct `RenderCommand` filled by the collection loop of `ForwardRenderer::render`. -/
structure RenderCommand where
  localToWorld : Mat4
  center : Vec3
  mesh : Mesh
  material : Material
deriving DecidableEq, Repr

/-! ## Calls on the graphics context -/

/-- Name of a shader uniform: `named s` is the string `s`, and `light i f` is the string
`"lights[" + std::to_string(i) + "]." + f` built in the light loops. -/
inductive UniformName where
  | named (s : String)
  | light (i : Nat) (field : String)
deriving DecidableEq, Repr

/-- Value passed to `ShaderProgram::set`. Two operations are carried unevaluated:
`inverseTranspose m` is `glm::transpose(glm::inverse(m))` (not defined in exact arithmetic for a
singular `m`) and `normalized v` is `glm::normalize(v)` (a square root). -/
inductive UniformValue where
  | int (n : Int)
  | vec2 (v : Vec2)
  | vec3 (v : Vec3)
  | mat4 (m : Mat4)
  | inverseTranspose (m : Mat4)
  | normalized (v : Vec3)
deriving DecidableEq, Repr

/-- One call issued by the code, on OpenGL itself (`gl...`) or on a collaborator that drives it
(`Material::setup`, `ShaderProgram::attach/link/set`, `Mesh::draw`). -/
inductive GLCall where
  | enable (cap : GLenum)
  | disable (cap : GLenum)
  | cullFace (mode : GLenum)
  | frontFace (mode : GLenum)
  | depthFunc (func : GLenum)
  | colorMask (r g b a : Bool)
  | depthMask (flag : Bool)
  | blendEquation (mode : GLenum)
  | blendFunc (sfactor dfactor : GLenum)
  | blendColor (r g b a : Scalar)
  | viewport (x y width height : Int)
  | clearColor (r g b a : Scalar)
  | clearDepth (depth : Scalar)
  | bindFramebuffer (target : GLenum) (framebuffer : Nat)
  | clear (mask : Nat)
  | bindVertexArray (array : Nat)
  | drawArrays (mode : GLenum) (first count : Int)
  | materialSetup (material : Material)
  | shaderAttach (file : String) (type : GLenum)
  | shaderLink
  | shaderSet (shader : ShaderProgram) (name : UniformName) (value : UniformValue)
  | meshDraw (mesh : Mesh)
deriving DecidableEq, Repr

/-- The part of the OpenGL context state that `PipelineState::setup` can write. -/
structure GLContext where
  cullFaceEnabled : Bool
  cullFaceMode : GLenum
  frontFace : GLenum
  depthTestEnabled : Bool
  depthFunc : GLenum
  colorMask : BVec4
  depthMask : Bool
  blendEnabled : Bool
  blendEquation : GLenum
  blendSrc : GLenum
  blendDst : GLenum
  blendColor : Vec4
deriving DecidableEq, Repr

/-- Effect of `glEnable(cap)` (`flag = true`) or `glDisable(cap)` (`flag = false`) on the
tracked capabilities; any other capability is outside the tracked state. -/
def GLContext.setCapability (c : GLContext) (cap : GLenum) (flag : Bool) : GLContext :=
  if cap = GL_CULL_FACE then { c with cullFaceEnabled := flag }
  else if cap = GL_DEPTH_TEST then { c with depthTestEnabled := flag }
  else if cap = GL_BLEND then { c with blendEnabled := flag }
  else c

/-- Effect of one call on the tracked context state, after the OpenGL reference. -/
def GLContext.apply (c : GLContext) : GLCall → GLContext
  | .enable cap => c.setCapability cap true
  | .disable cap => c.setCapability cap false
  | .cullFace mode => { c with cullFaceMode := mode }
  | .frontFace mode => { c with frontFace := mode }
  | .depthFunc func => { c with depthFunc := func }
  | .colorMask r g b a => { c with colorMask := ⟨r, g, b, a⟩ }
  | .depthMask flag => { c with depthMask := flag }
  | .blendEquation mode => { c with blendEquation := mode }
  | .blendFunc s d => { c with blendSrc := s, blendDst := d }
  | .blendColor r g b a => { c with blendColor := ⟨r, g, b, a⟩ }
  | _ => c

/-- Effect of a sequence of calls, first call first. -/
def GLContext.run (c : GLContext) (calls : List GLCall) : GLContext :=
  calls.foldl GLContext.apply c

/-! ## `PipelineState::setup` -/

/-- The calls of `PipelineState::setup`, in source order: face culling block, depth testing
block, blending block. -/
def PipelineState.setup (s : PipelineState) : List GLCall :=
  (if s.faceCulling.enabled then
      [.enable GL_CULL_FACE, .cullFace s.faceCulling.culledFace,
        .frontFace s.faceCulling.frontFace]
    else [.disable GL_CULL_FACE])
  ++ (if s.depthTesting.enabled then
      [.enable GL_DEPTH_TEST, .depthFunc s.depthTesting.function,
        .colorMask s.colorMask.r s.colorMask.g s.colorMask.b s.colorMask.a,
        .depthMask s.depthMask]
    else [.disable GL_DEPTH_TEST])
  ++ (if s.blending.enabled then
      [.enable GL_BLEND, .blendEquation s.blending.equation,
        .blendFunc s.blending.sourceFactor s.blending.destinationFactor,
        .blendColor s.blending.constantColor.x s.blending.constantColor.y
          s.blending.constantColor.z s.blending.constantColor.w]
    else [.disable GL_BLEND])

/-- Context state after `s.setup()` runs in context state `c`. -/
def PipelineState.setupOn (s : PipelineState) (c : GLContext) : GLContext :=
  c.run s.setup

/-! ## `ForwardRenderer` -/

/-- Modelled from the spec: the members of the class `ForwardRenderer` (forward-renderer.hpp is
not among the sources). Pointers the code tests against null (`skyMaterial`,
`postprocessMaterial`) are options; the default value is the renderer before `initialize`. -/
structure ForwardRenderer where
  windowSize : Int × Int := (0, 0)
  opaqueCommands : List RenderCommand := []
  transparentCommands : List RenderCommand := []
  lights : List (ComponentRef LightComponent) := []
  skySphere : Mesh := ⟨0⟩
  skyMaterial : Option Material := none
  postprocessFrameBuffer : Nat := 0
  postProcessVertexArray : Nat := 0
  colorTarget : Nat := 0
  depthTarget : Nat := 0
  postprocessMaterial : Option Material := none
  boostPath : String := ""
  crashingPath : String := ""
  crashingEffect : Bool := false
  boostingEffect : Bool := false
deriving DecidableEq, Repr

/-- The configuration object read by `ForwardRenderer::initialize`: the three keys it looks up,
`none` when `config.contains` is false. -/
structure Config where
  sky : Option String := none
  postprocess : Option String := none
  energyPostProcess : Option String := none
deriving DecidableEq, Repr

/-- Handles of the resources `ForwardRenderer::initialize` obtains from the mesh and texture
utilities and from OpenGL (`glGenFramebuffers`, `glGenVertexArrays`, `new Sampler`). -/
structure Resources where
  skySphere : Mesh
  skyTexture : Nat
  skySampler : Nat
  framebuffer : Nat
  vertexArray : Nat
  colorTarget : Nat
  depthTarget : Nat
  postprocessSampler : Nat
deriving DecidableEq, Repr

/-- The program built by `attach(vert, GL_VERTEX_SHADER); attach(frag, GL_FRAGMENT_SHADER);
link()` on a new `ShaderProgram`. -/
def ShaderProgram.build (vert frag : String) : ShaderProgram :=
  ⟨[(vert, GL_VERTEX_SHADER), (frag, GL_FRAGMENT_SHADER)]⟩

/-- The pipeline state `skyPipelineState` of `ForwardRenderer::initialize`. -/
def skyPipelineState : PipelineState :=
  { depthTesting := { enabled := true, function := GL_LEQUAL },
    faceCulling := { enabled := true, culledFace := GL_FRONT } }

/-- The members of the renderer after `ForwardRenderer::initialize(windowSize, config)`. -/
def ForwardRenderer.initialize (r : ForwardRenderer) (res : Resources) (windowSize : Int × Int)
    (config : Config) : ForwardRenderer :=
  let r := { r with windowSize := windowSize }
  let r :=
    match config.sky with
    | some _ =>
      { r with
        skySphere := res.skySphere,
        skyMaterial := some
          { shader := ShaderProgram.build "assets/shaders/textured.vert"
              "assets/shaders/textured.frag",
            texture := some res.skyTexture,
            sampler := some res.skySampler,
            pipelineState := skyPipelineState,
            tint := ⟨1, 1, 1, 1⟩,
            alphaThreshold := 1,
            transparent := false } }
    | none => r
  match config.postprocess with
  | some postprocess =>
    let r :=
      match config.energyPostProcess with
      | some energyPostProcess => { r with boostPath := energyPostProcess }
      | none => r
    let r := { r with crashingPath := postprocess }
    { r with
      postprocessFrameBuffer := res.framebuffer,
      colorTarget := res.colorTarget,
      depthTarget := res.depthTarget,
      postProcessVertexArray := res.vertexArray,
      postprocessMaterial := some
        { shader := ShaderProgram.build "assets/shaders/fullscreen.vert" r.crashingPath,
          texture := some res.colorTarget,
          sampler := some res.postprocessSampler,
          pipelineState := { depthMask := false } } }
  | none => r

/-- The locals `camera`, `opaqueCommands`, `transparentCommands` and `lights` of the collection
loop of `ForwardRenderer::render`. -/
structure Collected where
  camera : Option (ComponentRef CameraComponent) := none
  opaqueCommands : List RenderCommand := []
  transparentCommands : List RenderCommand := []
  lights : List (ComponentRef LightComponent) := []
deriving DecidableEq, Repr

/-- The `RenderCommand` the collection loop constructs from a mesh renderer. -/
def makeCommand (meshRenderer : ComponentRef MeshRendererComponent) : RenderCommand :=
  let localToWorld := meshRenderer.owner.localToWorld
  { localToWorld := localToWorld,
    center := (localToWorld.mulVec ⟨0, 0, 0, 1⟩).toVec3,
    mesh := meshRenderer.component.mesh,
    material := meshRenderer.component.material }

/-- One iteration of the collection loop of `ForwardRenderer::render` (lines 154-184). -/
def collectStep (st : Collected) (entity : Entity) : Collected :=
  let st := if st.camera.isNone then { st with camera := entity.getCamera } else st
  let st :=
    match entity.getMeshRenderer with
    | some meshRenderer =>
      let command := makeCommand meshRenderer
      if command.material.transparent then
        { st with transparentCommands := st.transparentCommands ++ [command] }
      else
        { st with opaqueCommands := st.opaqueCommands ++ [command] }
    | none => st
  match entity.getLight with
  | some light => { st with lights := st.lights ++ [light] }
  | none => st

/-- The collection loop of `ForwardRenderer::render`, started from the cleared lists. -/
def collect (world : World) : Collected :=
  world.foldl collectStep {}

/-- The vector `cameraForward` of `ForwardRenderer::render`: `getViewMatrix() * (0, 0, -1, 0)`. -/
def cameraForward (camera : ComponentRef CameraComponent) : Vec4 :=
  camera.component.viewMatrix.mulVec ⟨0, 0, -1, 0⟩

/-- The value `firstDistance` / `secondDistance` the sort comparator computes for a command. -/
def commandDistance (cameraForward : Vec4) (command : RenderCommand) : Scalar :=
  (command.localToWorld.mulVec (Vec4.ofVec3 command.center 1)).dot cameraForward

/-- The comparator lambda passed to `std::sort` in `ForwardRenderer::render`. -/
def transparentCompare (cameraForward : Vec4) (first second : RenderCommand) : Bool :=
  let firstDistance := commandDistance cameraForward first
  let secondDistance := commandDistance cameraForward second
  if firstDistance > secondDistance then true else false

/-- A comparator is a strict weak ordering, the precondition of `std::sort`: irreflexive,
transitive, and with transitive incomparability. -/
def StrictWeak {α : Type} (comp : α → α → Bool) : Prop :=
  (∀ a, comp a a = false) ∧
  (∀ a b c, comp a b = true → comp b c = true → comp a c = true) ∧
  (∀ a b c, comp a b = false → comp b a = false → comp b c = false → comp c b = false →
    comp a c = false ∧ comp c a = false)

/-- The contract of `std::sort` in the C++ standard, for an implementation `sort`: whenever the
comparator is a strict weak ordering, the result is a permutation of the input in which no
element compares before an earlier one. Nothing is promised about equivalent elements. -/
def StdSortContract {α : Type} (sort : (α → α → Bool) → List α → List α) : Prop :=
  ∀ comp, StrictWeak comp → ∀ xs,
    (sort comp xs).Perm xs ∧ (sort comp xs).Pairwise (fun a b => comp b a = false)

/-- Insertion of `a` into a sorted list, after the elements that do not compare after it. -/
def insertSorted {α : Type} (comp : α → α → Bool) (a : α) : List α → List α
  | [] => [a]
  | b :: l => if comp a b then a :: b :: l else b :: insertSorted comp a l

/-- A reference implementation of `std::sort`: insertion sort. -/
def insertionSort {α : Type} (comp : α → α → Bool) : List α → List α
  | [] => []
  | a :: l => insertSorted comp a (insertionSort comp l)

/-- Conversion of a `size_t` count to a 32-bit `int`, as in `int numLights = lights.size()`:
the value modulo `2 ^ 32` in the range `-2 ^ 31 .. 2 ^ 31 - 1`. -/
def toInt (n : Nat) : Int :=
  ((n : Int) + 2 ^ 31) % 2 ^ 32 - 2 ^ 31

/-- The body of the light loop `for (int i = 0; i < numLights; i++)` for the indices `is`:
`lights[i]` is read at each index, and reading outside the list fails. -/
def lightUniforms (shader : ShaderProgram) (lights : List (ComponentRef LightComponent)) :
    List Nat → Option (List GLCall)
  | [] => some []
  | i :: is =>
    match lights[i]? with
    | none => none
    | some light =>
      let position := (light.owner.localToWorld.mulVec ⟨0, 0, 0, 1⟩).toVec3
      let direction :=
        (light.owner.localToWorld.mulVec (Vec4.ofVec3 light.component.direction 0)).toVec3
      match lightUniforms shader lights is with
      | none => none
      | some rest =>
        some ([ GLCall.shaderSet shader (.light i "position")
                  (.vec3 ⟨position.x, position.y, position.z⟩),
                GLCall.shaderSet shader (.light i "direction")
                  (.normalized ⟨direction.x, direction.y, direction.z⟩),
                GLCall.shaderSet shader (.light i "type") (.int light.component.type),
                GLCall.shaderSet shader (.light i "diffuse") (.vec3 light.component.diffuse),
                GLCall.shaderSet shader (.light i "specular") (.vec3 light.component.specular),
                GLCall.shaderSet shader (.light i "attenuation")
                  (.vec3 light.component.attenuation),
                GLCall.shaderSet shader (.light i "cone_angles")
                  (.vec2 light.component.cone_angles) ] ++ rest)

/-- One iteration of the opaque loop or of the transparent loop of `ForwardRenderer::render`
(the two bodies are the same): material setup, uniforms, mesh draw. -/
def drawCommand (VP : Mat4) (cameraForward : Vec4) (numLights : Int)
    (lights : List (ComponentRef LightComponent)) (command : RenderCommand) :
    Option (List GLCall) :=
  let shader := command.material.shader
  if command.material.lit then
    match lightUniforms shader lights (List.range numLights.toNat) with
    | none => none
    | some perLight =>
      some ([ GLCall.materialSetup command.material,
              GLCall.shaderSet shader (.named "VP") (.mat4 VP),
              GLCall.shaderSet shader (.named "eye")
                (.vec3 ⟨cameraForward.x, cameraForward.y, cameraForward.z⟩),
              GLCall.shaderSet shader (.named "light_count") (.int numLights),
              GLCall.shaderSet shader (.named "M") (.mat4 command.localToWorld),
              GLCall.shaderSet shader (.named "M_IT") (.inverseTranspose command.localToWorld),
              GLCall.shaderSet shader (.named "sky.top") (.vec3 ⟨0, 1 / 10, 1 / 2⟩),
              GLCall.shaderSet shader (.named "sky.horizon") (.vec3 ⟨3 / 10, 3 / 10, 3 / 10⟩),
              GLCall.shaderSet shader (.named "sky.bottom") (.vec3 ⟨1 / 10, 1 / 10, 1 / 10⟩) ]
            ++ perLight ++ [GLCall.meshDraw command.mesh])
  else
    some [ GLCall.materialSetup command.material,
           GLCall.shaderSet shader (.named "transform") (.mat4 (VP.mul command.localToWorld)),
           GLCall.meshDraw command.mesh ]

/-- The opaque loop or the transparent loop of `ForwardRenderer::render` over `commands`. -/
def drawCommands (VP : Mat4) (cameraForward : Vec4) (numLights : Int)
    (lights : List (ComponentRef LightComponent)) : List RenderCommand → Option (List GLCall)
  | [] => some []
  | command :: rest =>
    match drawCommand VP cameraForward numLights lights command with
    | none => none
    | some calls =>
      match drawCommands VP cameraForward numLights lights rest with
      | none => none
      | some more => some (calls ++ more)

/-- The matrix `alwaysBehindTransform` of the sky pass, given by columns as in the source. -/
def alwaysBehindTransform : Mat4 :=
  ⟨⟨1, 0, 0, 0⟩, ⟨0, 1, 0, 0⟩, ⟨0, 0, 0, 0⟩, ⟨0, 0, 1, 1⟩⟩

/-- The matrix `modelMatrix` of the sky pass, from the camera owner-s local-to-world matrix `M`:
`glm::translate(glm::mat4(1.0f), cameraPosition)` with `cameraPosition = M * (0, 0, 0, 1)`. -/
def skyModelMatrix (M : Mat4) : Mat4 :=
  let cameraPosition := (M.mulVec ⟨0, 0, 0, 1⟩).toVec3
  let skySphereCenter := Mat4.identity
  skySphereCenter.translate cameraPosition

/-- The matrix `transformationMatrix` bound to the sky shader. -/
def skyTransform (camera : ComponentRef CameraComponent) : Mat4 :=
  let VP := camera.component.projectionMatrix.mul camera.component.viewMatrix
  (alwaysBehindTransform.mul VP).mul (skyModelMatrix camera.owner.localToWorld)

/-- The sky pass of `ForwardRenderer::render` (lines 291-334). -/
def skyPass (r : ForwardRenderer) (camera : ComponentRef CameraComponent) : List GLCall :=
  match r.skyMaterial with
  | some skyMaterial =>
    [ GLCall.materialSetup skyMaterial,
      GLCall.shaderSet skyMaterial.shader (.named "transform") (.mat4 (skyTransform camera)),
      GLCall.meshDraw r.skySphere ]
  | none => []

/-- The body shared by the two post-process branches of `ForwardRenderer::render`, for the
fragment shader `path`: the new renderer (the post-process material gets the rebuilt shader)
and the calls. -/
def postprocessDraw (r : ForwardRenderer) (postprocessMaterial : Material) (path : String) :
    ForwardRenderer × List GLCall :=
  let postprocessShader := ShaderProgram.build "assets/shaders/fullscreen.vert" path
  let material := { postprocessMaterial with shader := postprocessShader }
  ({ r with postprocessMaterial := some material },
   [ GLCall.shaderAttach "assets/shaders/fullscreen.vert" GL_VERTEX_SHADER,
     GLCall.shaderAttach path GL_FRAGMENT_SHADER,
     GLCall.shaderLink,
     GLCall.bindFramebuffer GL_DRAW_FRAMEBUFFER 0,
     GLCall.bindVertexArray r.postProcessVertexArray,
     GLCall.materialSetup material,
     GLCall.drawArrays GL_TRIANGLES 0 3 ])

/-- The crash branch of `ForwardRenderer::render` (lines 381-403). -/
def crashPass (r : ForwardRenderer) : ForwardRenderer × List GLCall :=
  match r.crashingEffect, r.postprocessMaterial with
  | true, some postprocessMaterial => postprocessDraw r postprocessMaterial r.crashingPath
  | _, _ => (r, [])

/-- The boost branch of `ForwardRenderer::render` (lines 405-427). -/
def boostPass (r : ForwardRenderer) : ForwardRenderer × List GLCall :=
  if r.boostPath ≠ "" ∧ r.boostingEffect = true then
    match r.postprocessMaterial with
    | some postprocessMaterial => postprocessDraw r postprocessMaterial r.boostPath
    | none => (r, [])
  else (r, [])

/-- The calls of `ForwardRenderer::render` from `glViewport` to `glClear` (lines 223-241). -/
def framePrelude (r : ForwardRenderer) : List GLCall :=
  [ GLCall.viewport 0 0 r.windowSize.1 r.windowSize.2,
    GLCall.clearColor 0 0 0 1,
    GLCall.clearDepth 1,
    GLCall.colorMask true true true true,
    GLCall.depthMask true ]
  ++ (if r.postprocessMaterial.isSome ∧ (r.crashingEffect = true ∨ r.boostingEffect = true) then
        [GLCall.bindFramebuffer GL_DRAW_FRAMEBUFFER r.postprocessFrameBuffer]
      else [])
  ++ [GLCall.clear (GL_COLOR_BUFFER_BIT ||| GL_DEPTH_BUFFER_BIT)]

/-- The opaque, sky and transparent passes of `ForwardRenderer::render` (lines 243-378), on the
renderer whose command and light lists are filled and sorted. -/
def scenePasses (r : ForwardRenderer) (camera : ComponentRef CameraComponent) :
    Option (List GLCall) :=
  let cameraForward := cameraForward camera
  let VP := camera.component.projectionMatrix.mul camera.component.viewMatrix
  let numLights := toInt r.lights.length
  match drawCommands VP cameraForward numLights r.lights r.opaqueCommands with
  | none => none
  | some opaqueCalls =>
    match drawCommands VP cameraForward numLights r.lights r.transparentCommands with
    | none => none
    | some transparentCalls => some (opaqueCalls ++ skyPass r camera ++ transparentCalls)

/-- The function `ForwardRenderer::render(world)`: the renderer after the call and the calls it
issued, or `none` if the call reads outside the light list. `stdSort` is the implementation of
`std::sort` in use. -/
def ForwardRenderer.render (stdSort : (RenderCommand → RenderCommand → Bool) →
    List RenderCommand → List RenderCommand) (r : ForwardRenderer) (world : World) :
    Option (ForwardRenderer × List GLCall) :=
  let found := collect world
  let r := { r with
    opaqueCommands := found.opaqueCommands,
    transparentCommands := found.transparentCommands,
    lights := found.lights }
  match found.camera with
  | none => some (r, [])
  | some camera =>
    let r := { r with
      transparentCommands :=
        stdSort (transparentCompare (cameraForward camera)) r.transparentCommands }
    match scenePasses r camera with
    | none => none
    | some scene =>
      let crash := crashPass r
      let boost := boostPass crash.1
      some (boost.1, framePrelude r ++ scene ++ crash.2 ++ boost.2)

/-! ## `std::sort` of GNU libstdc++

The routines of `bits/stl_algo.h` and `bits/stl_heap.h` that `std::sort` runs (GCC 12), on an
array held as a list with positions counted from `begin`. A routine returns `none` when the run
reads or writes outside the array, or when one of its loops uses up the bound passed to it (the
length of the array plus one, or the distance the loop has to cover); where a result is claimed
below, the routine is shown to return it. Positions and distances are natural numbers: as
`std::sort` calls these routines, each truncated subtraction agrees with the signed C++ one
(`(holeIndex - 1) / 2` is 0 for `holeIndex = 0` in both, and `len` is at least 1). -/

namespace gnu

/-- Assignment `*(begin + i) = v`; `none` outside the array. -/
def write {α : Type} (a : List α) (i : Nat) (v : α) : Option (List α) :=
  if i < a.length then some (a.set i v) else none

/-- Function `std::iter_swap` on the positions `i` and `j`. -/
def iter_swap {α : Type} (a : List α) (i j : Nat) : Option (List α) :=
  match a[i]?, a[j]? with
  | some x, some y =>
    match write a i y with
    | some b => write b j x
    | none => none
  | _, _ => none

/-- Function `std::__lg`: the floor of the binary logarithm (0 for 0 and 1). -/
def lg : Nat → Nat → Nat
  | 0, _ => 0
  | fuel + 1, n => if n ≥ 2 then lg fuel (n / 2) + 1 else 0

/-- Function `std::__move_median_to_first`. -/
def move_median_to_first {α : Type} (comp : α → α → Bool) (a : List α) (result ia ib ic : Nat) :
    Option (List α) :=
  match a[ia]?, a[ib]?, a[ic]? with
  | some va, some vb, some vc =>
    if comp va vb then
      if comp vb vc then iter_swap a result ib
      else if comp va vc then iter_swap a result ic
      else iter_swap a result ia
    else if comp va vc then iter_swap a result ia
    else if comp vb vc then iter_swap a result ic
    else iter_swap a result ib
  | _, _, _ => none

/-- Loop `while (comp(first, pivot)) ++first;` of `std::__unguarded_partition`. -/
def partition_up {α : Type} (comp : α → α → Bool) (a : List α) (pivot : Nat) : Nat → Nat → Option Nat
  | 0, _ => none
  | fuel + 1, first =>
    match a[first]?, a[pivot]? with
    | some x, some p => if comp x p then partition_up comp a pivot fuel (first + 1) else some first
    | _, _ => none

/-- Loop `while (comp(pivot, last)) --last;` of `std::__unguarded_partition`. -/
def partition_down {α : Type} (comp : α → α → Bool) (a : List α) (pivot : Nat) : Nat → Option Nat
  | 0 =>
    match a[pivot]?, a[0]? with
    | some p, some x => if comp p x then none else some 0
    | _, _ => none
  | last + 1 =>
    match a[pivot]?, a[last + 1]? with
    | some p, some x => if comp p x then partition_down comp a pivot last else some (last + 1)
    | _, _ => none

/-- Function `std::__unguarded_partition`: the array and the returned position. -/
def unguarded_partition {α : Type} (comp : α → α → Bool) (pivot : Nat) :
    Nat → List α → Nat → Nat → Option (List α × Nat)
  | 0, _, _, _ => none
  | fuel + 1, a, first, last =>
    match partition_up comp a pivot (a.length + 1) first with
    | none => none
    | some first =>
      if last = 0 then none
      else
        match partition_down comp a pivot (last - 1) with
        | none => none
        | some last =>
          if ¬ first < last then some (a, first)
          else
            match iter_swap a first last with
            | none => none
            | some a => unguarded_partition comp pivot fuel a (first + 1) last

/-- Function `std::__unguarded_partition_pivot`. -/
def unguarded_partition_pivot {α : Type} (comp : α → α → Bool) (a : List α) (first last : Nat) :
    Option (List α × Nat) :=
  let mid := first + (last - first) / 2
  match move_median_to_first comp a first (first + 1) mid (last - 1) with
  | none => none
  | some a => unguarded_partition comp first (a.length + 1) a (first + 1) last

/-- Function `std::__push_heap`, positions relative to `first`. -/
def push_heap {α : Type} (comp : α → α → Bool) (first topIndex : Nat) (value : α) :
    Nat → List α → Nat → Option (List α)
  | 0, _, _ => none
  | fuel + 1, a, holeIndex =>
    let parent := (holeIndex - 1) / 2
    if holeIndex > topIndex then
      match a[first + parent]? with
      | none => none
      | some p =>
        if comp p value then
          match write a (first + holeIndex) p with
          | none => none
          | some a => push_heap comp first topIndex value fuel a parent
        else write a (first + holeIndex) value
    else write a (first + holeIndex) value

/-- The `while` loop of `std::__adjust_heap`: the array, `holeIndex` and `secondChild`. -/
def adjust_heap_loop {α : Type} (comp : α → α → Bool) (first len : Nat) :
    Nat → List α → Nat → Nat → Option (List α × Nat × Nat)
  | 0, _, _, _ => none
  | fuel + 1, a, holeIndex, secondChild =>
    if secondChild < (len - 1) / 2 then
      let secondChild := 2 * (secondChild + 1)
      match a[first + secondChild]?, a[first + (secondChild - 1)]? with
      | some x, some y =>
        let secondChild := if comp x y then secondChild - 1 else secondChild
        match a[first + secondChild]? with
        | none => none
        | some v =>
          match write a (first + holeIndex) v with
          | none => none
          | some a => adjust_heap_loop comp first len fuel a secondChild secondChild
      | _, _ => none
    else some (a, holeIndex, secondChild)

/-- Function `std::__adjust_heap`. -/
def adjust_heap {α : Type} (comp : α → α → Bool) (a : List α) (first holeIndex len : Nat) (value : α) :
    Option (List α) :=
  let topIndex := holeIndex
  match adjust_heap_loop comp first len (len + 1) a holeIndex holeIndex with
  | none => none
  | some (a, holeIndex, secondChild) =>
    if len % 2 = 0 ∧ secondChild = (len - 2) / 2 then
      let secondChild := 2 * (secondChild + 1)
      match a[first + (secondChild - 1)]? with
      | none => none
      | some v =>
        match write a (first + holeIndex) v with
        | none => none
        | some a => push_heap comp first topIndex value (secondChild + 1) a (secondChild - 1)
    else push_heap comp first topIndex value (holeIndex + 1) a holeIndex

/-- Function `std::__pop_heap`. -/
def pop_heap {α : Type} (comp : α → α → Bool) (a : List α) (first last result : Nat) : Option (List α) :=
  match a[result]?, a[first]? with
  | some value, some top =>
    match write a result top with
    | none => none
    | some a => adjust_heap comp a first 0 (last - first) value
  | _, _ => none

/-- The `while (true)` loop of `std::__make_heap`, from `parent` down to 0. -/
def make_heap_loop {α : Type} (comp : α → α → Bool) (first len : Nat) : Nat → List α → Option (List α)
  | 0, a =>
    match a[first]? with
    | none => none
    | some value => adjust_heap comp a first 0 len value
  | parent + 1, a =>
    match a[first + (parent + 1)]? with
    | none => none
    | some value =>
      match adjust_heap comp a first (parent + 1) len value with
      | none => none
      | some a => make_heap_loop comp first len parent a

/-- Function `std::__make_heap`. -/
def make_heap {α : Type} (comp : α → α → Bool) (a : List α) (first last : Nat) : Option (List α) :=
  if last - first < 2 then some a
  else make_heap_loop comp first (last - first) ((last - first - 2) / 2) a

/-- The `for` loop of `std::__heap_select` over the `count` positions from `i`. -/
def heap_select_loop {α : Type} (comp : α → α → Bool) (first middle : Nat) :
    Nat → List α → Nat → Option (List α)
  | 0, a, _ => some a
  | count + 1, a, i =>
    match a[i]?, a[first]? with
    | some x, some top =>
      if comp x top then
        match pop_heap comp a first middle i with
        | none => none
        | some a => heap_select_loop comp first middle count a (i + 1)
      else heap_select_loop comp first middle count a (i + 1)
    | _, _ => none

/-- Function `std::__heap_select`. -/
def heap_select {α : Type} (comp : α → α → Bool) (a : List α) (first middle last : Nat) :
    Option (List α) :=
  match make_heap comp a first middle with
  | none => none
  | some a => heap_select_loop comp first middle (last - middle) a middle

/-- Function `std::__sort_heap` on the `n` positions from `first`. -/
def sort_heap {α : Type} (comp : α → α → Bool) (first : Nat) : Nat → List α → Option (List α)
  | n + 2, a =>
    match pop_heap comp a first (first + (n + 1)) (first + (n + 1)) with
    | none => none
    | some a => sort_heap comp first (n + 1) a
  | _, a => some a

/-- Function `std::__partial_sort`. -/
def partial_sort {α : Type} (comp : α → α → Bool) (a : List α) (first middle last : Nat) :
    Option (List α) :=
  match heap_select comp a first middle last with
  | none => none
  | some a => sort_heap comp first (middle - first) a

/-- Function `std::__introsort_loop`. -/
def introsort_loop {α : Type} (comp : α → α → Bool) :
    Nat → List α → Nat → Nat → Nat → Option (List α)
  | 0, _, _, _, _ => none
  | fuel + 1, a, first, last, depth_limit =>
    if last - first > 16 then
      if depth_limit = 0 then partial_sort comp a first last last
      else
        match unguarded_partition_pivot comp a first last with
        | none => none
        | some (a, cut) =>
          match introsort_loop comp fuel a cut last (depth_limit - 1) with
          | none => none
          | some a => introsort_loop comp fuel a first cut (depth_limit - 1)
    else some a

/-- Function `std::__unguarded_linear_insert`: the `while` loop and the final store, `last`
being the current position of the hole. -/
def unguarded_linear_insert {α : Type} (comp : α → α → Bool) (val : α) : Nat → List α → Option (List α)
  | 0, _ => none
  | next + 1, a =>
    match a[next]? with
    | none => none
    | some x =>
      if comp val x then
        match write a (next + 1) x with
        | none => none
        | some a => unguarded_linear_insert comp val next a
      else write a (next + 1) val

/-- One iteration of the `for` loop of `std::__insertion_sort` at position `i`. -/
def insertion_sort_step {α : Type} (comp : α → α → Bool) (a : List α) (first i : Nat) : Option (List α) :=
  match a[i]?, a[first]? with
  | some val, some head =>
    if comp val head then
      some (a.take first ++ val :: ((a.drop first).take (i - first) ++ a.drop (i + 1)))
    else unguarded_linear_insert comp val i a
  | _, _ => none

/-- The `for` loop of `std::__insertion_sort` over the `count` positions from `i`. -/
def insertion_sort_loop {α : Type} (comp : α → α → Bool) (first : Nat) :
    Nat → List α → Nat → Option (List α)
  | 0, a, _ => some a
  | count + 1, a, i =>
    match insertion_sort_step comp a first i with
    | none => none
    | some a => insertion_sort_loop comp first count a (i + 1)

/-- Function `std::__insertion_sort`. -/
def insertion_sort {α : Type} (comp : α → α → Bool) (a : List α) (first last : Nat) : Option (List α) :=
  if first = last then some a
  else insertion_sort_loop comp first (last - (first + 1)) a (first + 1)

/-- Function `std::__unguarded_insertion_sort` over the `count` positions from `i`. -/
def unguarded_insertion_sort {α : Type} (comp : α → α → Bool) : Nat → List α → Nat → Option (List α)
  | 0, a, _ => some a
  | count + 1, a, i =>
    match a[i]? with
    | none => none
    | some val =>
      match unguarded_linear_insert comp val i a with
      | none => none
      | some a => unguarded_insertion_sort comp count a (i + 1)

/-- Function `std::__final_insertion_sort`. -/
def final_insertion_sort {α : Type} (comp : α → α → Bool) (a : List α) (first last : Nat) :
    Option (List α) :=
  if last - first > 16 then
    match insertion_sort comp a first (first + 16) with
    | none => none
    | some a => unguarded_insertion_sort comp (last - (first + 16)) a (first + 16)
  else insertion_sort comp a first last

/-- Function `std::sort(begin, end, comp)` of GNU libstdc++ on the whole array. -/
def sort {α : Type} (comp : α → α → Bool) (a : List α) : Option (List α) :=
  if a.length = 0 then some a
  else
    match introsort_loop comp (a.length + 1) a 0 a.length (lg a.length a.length * 2) with
    | none => none
    | some a => final_insertion_sort comp a 0 a.length

/-- The list `sorted` is a stable sort of `orig` under `comp`: a permutation of it in which no
element compares before an earlier one, and which keeps every sublist of `orig` that is
already in order (so elements that compare equivalent keep their relative order). -/
def StableSorted {α : Type} (comp : α → α → Bool) (orig sorted : List α) : Prop :=
  sorted.Perm orig ∧ sorted.Pairwise (fun x y => comp y x = false) ∧
  ∀ c : List α, c.Pairwise (fun x y => comp y x = false) → c.Sublist orig → c.Sublist sorted

end gnu

/-! ## Notions used to state the properties -/

/-- The translation matrix by `P`: identity upper-left block, last column `(P, 1)`. -/
def Mat4.translation (P : Vec3) : Mat4 :=
  ⟨⟨1, 0, 0, 0⟩, ⟨0, 1, 0, 0⟩, ⟨0, 0, 1, 0⟩, ⟨P.x, P.y, P.z, 1⟩⟩

/-- The affine transform (last row `0, 0, 0, 1`) whose rotation and scale part has the columns
`a`, `b`, `c` and whose translation is `P`. -/
def Mat4.affine (a b c P : Vec3) : Mat4 :=
  ⟨⟨a.x, a.y, a.z, 0⟩, ⟨b.x, b.y, b.z, 0⟩, ⟨c.x, c.y, c.z, 0⟩, ⟨P.x, P.y, P.z, 1⟩⟩

/-- The commands of the mesh-renderer entities of a world, one per such entity, in traversal
order. -/
def meshCommands (world : World) : List RenderCommand :=
  world.filterMap fun entity => entity.getMeshRenderer.map makeCommand

/-- Two context states agree on the culling, depth-test and blending state: the three enable
flags, the culled face and front face, the depth function, and the blend equation, factors and
constant color. -/
def SameFeatureState (c d : GLContext) : Prop :=
  c.cullFaceEnabled = d.cullFaceEnabled ∧ c.cullFaceMode = d.cullFaceMode ∧
  c.frontFace = d.frontFace ∧ c.depthTestEnabled = d.depthTestEnabled ∧
  c.depthFunc = d.depthFunc ∧ c.blendEnabled = d.blendEnabled ∧
  c.blendEquation = d.blendEquation ∧ c.blendSrc = d.blendSrc ∧ c.blendDst = d.blendDst ∧
  c.blendColor = d.blendColor

/-- A context state used in the examples: everything disabled, the given culled face. -/
def exampleContext (cullFaceMode : GLenum) : GLContext :=
  { cullFaceEnabled := false, cullFaceMode := cullFaceMode, frontFace := GL_CCW,
    depthTestEnabled := false, depthFunc := GL_LEQUAL, colorMask := ⟨true, true, true, true⟩,
    depthMask := true, blendEnabled := false, blendEquation := GL_FUNC_ADD,
    blendSrc := GL_SRC_ALPHA, blendDst := GL_ONE_MINUS_SRC_ALPHA, blendColor := ⟨0, 0, 0, 0⟩ }

/-- The index `i` of a call that sets a uniform named `lights[i].field`. -/
def lightIndex : GLCall → Option Nat
  | .shaderSet _ (.light i _) _ => some i
  | _ => none

/-- The call is a `glBindFramebuffer`. -/
def GLCall.isBindFramebuffer : GLCall → Bool
  | .bindFramebuffer _ _ => true
  | _ => false

/-- The call writes to the bound draw framebuffer: `glClear`, `Mesh::draw`, `glDrawArrays`. -/
def GLCall.isOutput : GLCall → Bool
  | .clear _ => true
  | .meshDraw _ => true
  | .drawArrays _ _ _ => true
  | _ => false

/-- The constant `GL_FRAMEBUFFER`, the target that binds both the read and draw framebuffer. -/
def GL_FRAMEBUFFER : GLenum := 0x8D40

/-- The draw framebuffer bound after a call, `bound` being the one bound before it. -/
def boundAfter (bound : Nat) : GLCall → Nat
  | .bindFramebuffer target framebuffer =>
    if target = GL_DRAW_FRAMEBUFFER ∨ target = GL_FRAMEBUFFER then framebuffer else bound
  | _ => bound

/-- The output calls of a trace, each with the draw framebuffer it writes to, `bound` being the
framebuffer bound when the trace starts. -/
def outputTargets (bound : Nat) : List GLCall → List (GLCall × Nat)
  | [] => []
  | call :: rest =>
    (if call.isOutput then [(call, bound)] else []) ++ outputTargets (boundAfter bound call) rest

/-- The renderer on entry to the passes of `ForwardRenderer::render`, once the command and
light lists are collected and the transparent list is sorted. -/
def ForwardRenderer.prepared (stdSort : (RenderCommand → RenderCommand → Bool) →
    List RenderCommand → List RenderCommand) (r : ForwardRenderer) (world : World)
    (camera : ComponentRef CameraComponent) : ForwardRenderer :=
  { r with
    opaqueCommands := (collect world).opaqueCommands,
    transparentCommands :=
      stdSort (transparentCompare (cameraForward camera)) (collect world).transparentCommands,
    lights := (collect world).lights }

/-- The call belongs to the draw protocol of a command: `Material::setup`,
`ShaderProgram::set` or `Mesh::draw`. -/
def GLCall.isSceneCall : GLCall → Bool
  | .materialSetup _ => true
  | .shaderSet _ _ _ => true
  | .meshDraw _ => true
  | _ => false

/-- The call is a `glDrawArrays`. -/
def GLCall.isDrawArrays : GLCall → Bool
  | .drawArrays _ _ _ => true
  | _ => false

/-- The renderer after outside game logic sets the two effect toggles `crashingEffect` and
`boostingEffect`. -/
def ForwardRenderer.withEffects (r : ForwardRenderer) (crash boost : Bool) : ForwardRenderer :=
  { r with crashingEffect := crash, boostingEffect := boost }

/-- The condition under which `ForwardRenderer::render` binds the post-process framebuffer
before clearing: a post-process material exists and one of the effect flags is set. -/
def ForwardRenderer.offscreen (r : ForwardRenderer) : Bool :=
  r.postprocessMaterial.isSome && (r.crashingEffect || r.boostingEffect)

/-- The call is a `Mesh::draw`. -/
def GLCall.isMeshDraw : GLCall → Bool
  | .meshDraw _ => true
  | _ => false

/-- The call is a `glClear`. -/
def GLCall.isClear : GLCall → Bool
  | .clear _ => true
  | _ => false

/-- The call sets a uniform of the given shader program. -/
def GLCall.isSetOn (shader : ShaderProgram) : GLCall → Bool
  | .shaderSet s _ _ => decide (s = shader)
  | _ => false

/-- Every mesh draw of the trace comes right after a `Material::setup` call, `previous` being
the call before the trace. -/
def setupBeforeDraws (previous : Option GLCall) : List GLCall → Bool
  | [] => true
  | call :: rest =>
    (if call.isMeshDraw then
        (match previous with
          | some (.materialSetup _) => true
          | _ => false)
      else true)
    && setupBeforeDraws (some call) rest

/-- The calls are the draw protocol of one object: the setup of `material`, then only uniform
settings on the shader of `material`, then the draw of `mesh`. -/
def isDrawBlock (material : Material) (mesh : Mesh) (block : List GLCall) : Bool :=
  match block with
  | .materialSetup m :: rest =>
    decide (m = material) && decide (rest.getLast? = some (.meshDraw mesh))
      && rest.dropLast.all (GLCall.isSetOn material.shader)
  | _ => false

/-- The objects the scene passes draw, in order, each with its material: the opaque commands,
the sky sphere when a sky material exists, the transparent commands. -/
def drawItems (r : ForwardRenderer) : List (Material × Mesh) :=
  r.opaqueCommands.map (fun c => (c.material, c.mesh))
  ++ r.skyMaterial.toList.map (fun m => (m, r.skySphere))
  ++ r.transparentCommands.map (fun c => (c.material, c.mesh))

/-! ## Example scenes -/

/-- A camera looking down the negative z axis from the origin: identity view and projection. -/
def exampleCamera : Entity :=
  { camera := some ⟨Mat4.identity, Mat4.identity⟩ }

/-- The camera component of `exampleCamera`, as `getComponent` returns it. -/
def exampleCameraRef : ComponentRef CameraComponent :=
  ⟨⟨Mat4.identity, Mat4.identity⟩, exampleCamera⟩

/-- A transparent, unlit object with the given local-to-world matrix and mesh handle. -/
def exampleGlass (localToWorld : Mat4) (handle : Nat) : Entity :=
  { localToWorld := localToWorld, meshRenderer := some ⟨⟨handle⟩, { transparent := true }⟩ }

/-- An opaque lit object at the origin. -/
def exampleLit : Entity :=
  { meshRenderer := some ⟨⟨7⟩, { lit := true }⟩ }

/-- The command the collection loop builds from `exampleLit`. -/
def exampleLitCommand : RenderCommand :=
  makeCommand ⟨⟨⟨7⟩, { lit := true }⟩, exampleLit⟩

/-- A camera and two transparent objects translated along z, whose comparator distances are
2 (collected first) and 5 (collected second). -/
def exampleWorld : World :=
  [exampleCamera, exampleGlass (Mat4.translation ⟨0, 0, -1⟩) 1,
    exampleGlass (Mat4.translation ⟨0, 0, -5 / 2⟩) 2]

/-- A world without camera: one transparent object. -/
def exampleWorldNoCamera : World :=
  [exampleGlass (Mat4.translation ⟨0, 0, -1⟩) 1]

/-- A camera and a lit object, no light. -/
def exampleWorldLit : World :=
  [exampleCamera, exampleLit]

/-- An object scaled by 3 and placed 2 units in front of the camera. -/
def exampleScaled : Entity :=
  exampleGlass (Mat4.affine ⟨3, 0, 0⟩ ⟨0, 3, 0⟩ ⟨0, 0, 3⟩ ⟨0, 0, -2⟩) 1

/-- An unscaled object placed 3 units in front of the camera. -/
def examplePlain : Entity :=
  exampleGlass (Mat4.translation ⟨0, 0, -3⟩) 2

/-- A camera, then the scaled object, then the plain object. -/
def exampleWorldScaled : World :=
  [exampleCamera, exampleScaled, examplePlain]

/-- Handles used in the examples. -/
def exampleResources : Resources :=
  { skySphere := ⟨100⟩, skyTexture := 1, skySampler := 2, framebuffer := 3, vertexArray := 4,
    colorTarget := 5, depthTarget := 6, postprocessSampler := 7 }

/-- A second camera entity, with a view matrix different from that of `exampleCamera`. -/
def exampleCameraB : Entity :=
  { camera := some ⟨Mat4.translation ⟨0, 0, 1⟩, Mat4.identity⟩ }

/-- A world with an object first, then two cameras. -/
def exampleWorldTwoCameras : World :=
  [exampleGlass (Mat4.translation ⟨0, 0, -1⟩) 1, exampleCamera, exampleCameraB]

/-- A camera and two transparent objects at the same place, with mesh handles 1 then 2: their
comparator distances are equal. -/
def exampleWorldTies : World :=
  [exampleCamera, exampleGlass (Mat4.translation ⟨0, 0, -1⟩) 1,
    exampleGlass (Mat4.translation ⟨0, 0, -1⟩) 2]

/-- Stability of a sort of the transparent list: whenever `A` is collected before `B` and both
have the same comparator distance, `A` is before `B` in the sorted list. -/
def TiesKeepOrder (cameraForward : Vec4) (collected sorted : List RenderCommand) : Prop :=
  ∀ A B, commandDistance cameraForward A = commandDistance cameraForward B →
    [A, B].Sublist collected → [A, B].Sublist sorted

/-- A camera and seventeen transparent objects at the same place, with mesh handles 1 to 17 in
traversal order: their comparator distances are all equal. -/
def exampleWorldManyTies : World :=
  exampleCamera ::
    (List.range 17).map (fun i => exampleGlass (Mat4.translation ⟨0, 0, -1⟩) (i + 1))

/-- The command collected from the object of `exampleWorldManyTies` with mesh handle `handle`. -/
def exampleTieCommand (handle : Nat) : RenderCommand :=
  makeCommand ⟨⟨⟨handle⟩, { transparent := true }⟩,
    exampleGlass (Mat4.translation ⟨0, 0, -1⟩) handle⟩

/-! ## Properties of `PipelineState::setup` -/

/-- C5: `PipelineState::setup` is idempotent on the graphics-context state: for every pipeline
state `s` and context state `c`, running `setup` twice leaves the context as running it once. -/
theorem setup_idempotent (s : PipelineState) (c : GLContext) :
    s.setupOn (s.setupOn c) = s.setupOn c := by
  cases h1 : s.faceCulling.enabled <;> cases h2 : s.depthTesting.enabled <;>
    cases h3 : s.blending.enabled <;>
    simp [PipelineState.setupOn, PipelineState.setup, GLContext.run, GLContext.apply,
      GLContext.setCapability, GL_CULL_FACE, GL_DEPTH_TEST, GL_BLEND, h1, h2, h3]

/-- C8, as stated, fails: with the default pipeline state (face culling disabled) `setup` only
disables culling, so the culled face of the prior context survives, and two prior contexts that
differ in it still differ after `setup`. -/
theorem setup_parameters_leak :
    ¬ ∀ (s : PipelineState) (c1 c2 : GLContext),
        SameFeatureState (s.setupOn c1) (s.setupOn c2) := by
  intro h
  have h2 := (h {} (exampleContext GL_BACK) (exampleContext GL_FRONT)).2.1
  revert h2
  decide

/-- C8, amended: `setup` always overwrites the three enable flags with those of `s`, so they do
not depend on the prior context; the parameters of a feature are overwritten with those of `s`
when `s` enables the feature and are those of the prior context when `s` disables it. -/
theorem setup_overwrites_enabled (s : PipelineState) (c : GLContext) :
    (s.setupOn c).cullFaceEnabled = s.faceCulling.enabled ∧
    (s.setupOn c).depthTestEnabled = s.depthTesting.enabled ∧
    (s.setupOn c).blendEnabled = s.blending.enabled ∧
    (s.setupOn c).cullFaceMode =
      (if s.faceCulling.enabled then s.faceCulling.culledFace else c.cullFaceMode) ∧
    (s.setupOn c).frontFace =
      (if s.faceCulling.enabled then s.faceCulling.frontFace else c.frontFace) ∧
    (s.setupOn c).depthFunc =
      (if s.depthTesting.enabled then s.depthTesting.function else c.depthFunc) ∧
    (s.setupOn c).blendEquation =
      (if s.blending.enabled then s.blending.equation else c.blendEquation) ∧
    (s.setupOn c).blendSrc =
      (if s.blending.enabled then s.blending.sourceFactor else c.blendSrc) ∧
    (s.setupOn c).blendDst =
      (if s.blending.enabled then s.blending.destinationFactor else c.blendDst) ∧
    (s.setupOn c).blendColor =
      (if s.blending.enabled then s.blending.constantColor else c.blendColor) := by
  cases h1 : s.faceCulling.enabled <;> cases h2 : s.depthTesting.enabled <;>
    cases h3 : s.blending.enabled <;>
    simp [PipelineState.setupOn, PipelineState.setup, GLContext.run, GLContext.apply,
      GLContext.setCapability, GL_CULL_FACE, GL_DEPTH_TEST, GL_BLEND, h1, h2, h3]

/-! ## The sky model matrix -/

/-- C6: for a camera owner whose local-to-world matrix is affine with translation `P` and any
rotation and scale part `a`, `b`, `c`, the sky model matrix of `ForwardRenderer::render` is the
pure translation by `P`, whatever `a`, `b`, `c` are; the matrix bound to the sky shader is built
from that translation. -/
theorem skyModelMatrix_affine (a b c P : Vec3) :
    skyModelMatrix (Mat4.affine a b c P) = Mat4.translation P ∧
    ∀ (component : CameraComponent) (owner : Entity),
      skyTransform ⟨component, { owner with localToWorld := Mat4.affine a b c P }⟩ =
        (alwaysBehindTransform.mul (component.projectionMatrix.mul component.viewMatrix)).mul
          (Mat4.translation P) := by
  have h : skyModelMatrix (Mat4.affine a b c P) = Mat4.translation P := by
    simp [skyModelMatrix, Mat4.affine, Mat4.translation, Mat4.translate, Mat4.identity,
      Mat4.mulVec, Vec4.add, Vec4.scale, Vec4.toVec3]
  refine ⟨h, ?_⟩
  intro component owner
  simp [skyTransform, h]

/-! ## The collection loop -/

/-- The collection loop from any loop state: the commands of the mesh-renderer entities are
appended to the two buckets in traversal order, the lights to the light list, and the camera is
kept once found. -/
theorem foldl_collectStep (world : World) (st : Collected) :
    (world.foldl collectStep st).opaqueCommands =
      st.opaqueCommands ++ (meshCommands world).filter (fun c => !c.material.transparent) ∧
    (world.foldl collectStep st).transparentCommands =
      st.transparentCommands ++ (meshCommands world).filter (fun c => c.material.transparent) ∧
    (world.foldl collectStep st).lights = st.lights ++ world.filterMap Entity.getLight ∧
    (world.foldl collectStep st).camera =
      (match st.camera with
        | some camera => some camera
        | none => world.findSome? Entity.getCamera) := by
  induction world generalizing st with
  | nil => cases h : st.camera <;> simp [meshCommands, h]
  | cons entity rest ih =>
    rw [List.foldl_cons]
    obtain ⟨h1, h2, h3, h4⟩ := ih (collectStep st entity)
    rw [h1, h2, h3, h4]
    cases hm : entity.getMeshRenderer with
    | none =>
      cases hl : entity.getLight <;> cases hc : st.camera <;> cases hc2 : entity.getCamera <;>
        simp [collectStep, meshCommands, hm, hl, hc, hc2, List.filterMap_cons,
          List.findSome?_cons]
    | some meshRenderer =>
      cases ht : (makeCommand meshRenderer).material.transparent <;>
        cases hl : entity.getLight <;> cases hc : st.camera <;>
        cases hc2 : entity.getCamera <;>
        simp [collectStep, meshCommands, hm, hl, hc, hc2, ht, List.filterMap_cons,
          List.findSome?_cons, List.filter_cons]

/-- The lists and the camera the collection loop of `ForwardRenderer::render` produces. -/
theorem collect_eq (world : World) :
    (collect world).opaqueCommands =
      (meshCommands world).filter (fun c => !c.material.transparent) ∧
    (collect world).transparentCommands =
      (meshCommands world).filter (fun c => c.material.transparent) ∧
    (collect world).lights = world.filterMap Entity.getLight ∧
    (collect world).camera = world.findSome? Entity.getCamera := by
  have h := foldl_collectStep world {}
  simpa [collect] using h

/-- There are as many commands as entities with a mesh renderer. -/
theorem meshCommands_length (world : World) :
    (meshCommands world).length = (world.filter fun e => e.meshRenderer.isSome).length := by
  induction world with
  | nil => simp [meshCommands]
  | cons e rest ih =>
    unfold meshCommands at ih ⊢
    cases hm : e.meshRenderer with
    | none =>
      have hg : e.getMeshRenderer = none := by simp [Entity.getMeshRenderer, hm]
      simp [List.filterMap_cons, List.filter_cons, hg, hm, ih]
    | some m =>
      have hg : e.getMeshRenderer = some ⟨m, e⟩ := by simp [Entity.getMeshRenderer, hm]
      simp [List.filterMap_cons, List.filter_cons, hg, hm, ih]

/-- C2: the collection loop yields one command per mesh-renderer entity, in traversal order:
the transparent bucket is the sublist of the commands whose material is transparent, the opaque
bucket the sublist of the others, both in traversal order, each command of `meshCommands` is
in exactly one bucket, and the bucket sizes add up to the number of mesh-renderer entities. -/
theorem collect_partition (world : World) :
    (collect world).transparentCommands =
      (meshCommands world).filter (fun c => c.material.transparent) ∧
    (collect world).opaqueCommands =
      (meshCommands world).filter (fun c => !c.material.transparent) ∧
    (meshCommands world).length = (world.filter fun e => e.meshRenderer.isSome).length ∧
    (∀ c ∈ meshCommands world,
      (c ∈ (collect world).transparentCommands ↔ c.material.transparent = true) ∧
      (c ∈ (collect world).opaqueCommands ↔ c.material.transparent = false)) ∧
    (collect world).opaqueCommands.length + (collect world).transparentCommands.length =
      (world.filter fun e => e.meshRenderer.isSome).length := by
  obtain ⟨h1, h2, _, _⟩ := collect_eq world
  have hlen := meshCommands_length world
  refine ⟨h2, h1, hlen, ?_, ?_⟩
  · intro c hc
    rw [h1, h2]
    simp [List.mem_filter, hc]
  · rw [h1, h2, ← hlen]
    have := List.length_eq_length_filter_add (l := meshCommands world)
      (fun c => !c.material.transparent)
    simp only [Bool.not_not] at this
    omega

/-! ## The transparency sort -/

/-- Inserting into a list permutes the list with the new element in front. -/
theorem insertSorted_perm {α : Type} (comp : α → α → Bool) (a : α) (l : List α) :
    (insertSorted comp a l).Perm (a :: l) := by
  induction l with
  | nil => simp [insertSorted]
  | cons b l ih =>
    unfold insertSorted
    split
    · exact List.Perm.refl _
    · exact (List.Perm.cons b ih).trans (List.Perm.swap a b l)

/-- Insertion sort returns a permutation of its input. -/
theorem insertionSort_perm {α : Type} (comp : α → α → Bool) (l : List α) :
    (insertionSort comp l).Perm l := by
  induction l with
  | nil => simp [insertionSort]
  | cons a l ih =>
    unfold insertionSort
    exact (insertSorted_perm comp a _).trans (List.Perm.cons a ih)

/-- Inserting into a sorted list keeps it sorted, for an irreflexive transitive comparator. -/
theorem insertSorted_pairwise {α : Type} (comp : α → α → Bool)
    (hirr : ∀ a, comp a a = false)
    (htrans : ∀ a b c, comp a b = true → comp b c = true → comp a c = true)
    (a : α) (l : List α) (hl : l.Pairwise (fun x y => comp y x = false)) :
    (insertSorted comp a l).Pairwise (fun x y => comp y x = false) := by
  induction l with
  | nil => simp [insertSorted]
  | cons b l ih =>
    rw [List.pairwise_cons] at hl
    unfold insertSorted
    split
    · rename_i hab
      refine List.Pairwise.cons ?_ (List.Pairwise.cons hl.1 hl.2)
      intro y hy
      rcases List.mem_cons.mp hy with rfl | hy
      · cases hya : comp y a with
        | false => rfl
        | true => have := htrans a y a hab hya; simp [hirr] at this
      · cases hya : comp y a with
        | false => rfl
        | true => have := htrans y a b hya hab; simp [hl.1 y hy] at this
    · rename_i hab
      refine List.Pairwise.cons ?_ (ih hl.2)
      intro y hy
      rcases List.mem_cons.mp ((insertSorted_perm comp a l).mem_iff.mp hy) with rfl | hy
      · simpa using hab
      · exact hl.1 y hy

/-- Insertion sort meets the contract of `std::sort`. -/
theorem insertionSort_contract {α : Type} :
    StdSortContract (insertionSort : (α → α → Bool) → List α → List α) := by
  intro comp hcomp xs
  refine ⟨insertionSort_perm comp xs, ?_⟩
  induction xs with
  | nil => simp [insertionSort]
  | cons a l ih =>
    unfold insertionSort
    exact insertSorted_pairwise comp hcomp.1 hcomp.2.1 a _ ih

/-- The comparator of `ForwardRenderer::render` is a strict weak ordering (exact scalars). -/
theorem transparentCompare_strictWeak (cameraForward : Vec4) :
    StrictWeak (transparentCompare cameraForward) := by
  refine ⟨?_, ?_, ?_⟩
  · intro a
    simp [transparentCompare]
  · intro a b c hab hbc
    simp only [transparentCompare, gt_iff_lt, ite_eq_left_iff, not_lt, Bool.false_eq_true,
      imp_false, not_le] at hab hbc ⊢
    exact lt_trans hbc hab
  · intro a b c h1 h2 h3 h4
    simp only [transparentCompare, gt_iff_lt, ite_eq_right_iff, Bool.true_eq_false, imp_false,
      not_lt] at h1 h2 h3 h4 ⊢
    exact ⟨le_trans h1 h3, le_trans h4 h2⟩

/-! ## The light loop and the draw loops -/

/-- The conversion to `int` never exceeds the count. -/
theorem toInt_toNat_le (n : Nat) : (toInt n).toNat ≤ n := by
  unfold toInt
  omega

/-- The conversion to `int` is exact below `2 ^ 31`. -/
theorem toInt_of_lt (n : Nat) (h : n < 2 ^ 31) : toInt n = (n : Int) := by
  unfold toInt
  omega

/-- The light loop over indices inside the light list succeeds; its calls only set
`lights[i].*` uniforms, for the indices of the loop and for each of them. -/
theorem lightUniforms_spec (shader : ShaderProgram) (lights : List (ComponentRef LightComponent))
    (is : List Nat) (h : ∀ i ∈ is, i < lights.length) :
    ∃ calls, lightUniforms shader lights is = some calls ∧
      (∀ c ∈ calls, c.isSceneCall = true ∧ c.isOutput = false ∧
        ∃ i ∈ is, lightIndex c = some i) ∧
      (∀ i ∈ is, ∃ c ∈ calls, lightIndex c = some i) := by
  induction is with
  | nil => exact ⟨[], rfl, by simp, by simp⟩
  | cons i is ih =>
    have hi : i < lights.length := h i (List.mem_cons_self i is)
    obtain ⟨rest, hrest, hall, hex⟩ := ih (fun j hj => h j (List.mem_cons_of_mem i hj))
    have hget : lights[i]? = some lights[i] := List.getElem?_eq_getElem hi
    refine ⟨_, by simp only [lightUniforms, hget, hrest]; rfl, ?_, ?_⟩
    · intro c hc
      rcases List.mem_append.mp hc with hc | hc
      · simp only [List.mem_cons, List.mem_singleton, List.not_mem_nil, or_false] at hc
        rcases hc with rfl | rfl | rfl | rfl | rfl | rfl | rfl <;>
          simp [GLCall.isSceneCall, GLCall.isOutput, lightIndex]
      · obtain ⟨h1, h2, j, hj, hidx⟩ := hall c hc
        exact ⟨h1, h2, j, List.mem_cons_of_mem i hj, hidx⟩
    · intro j hj
      rcases List.mem_cons.mp hj with rfl | hj
      · exact ⟨_, List.mem_append_left _ (List.mem_cons_self _ _), rfl⟩
      · obtain ⟨c, hc, hidx⟩ := hex j hj
        exact ⟨c, List.mem_append_right _ hc, hidx⟩

/-- The light loop of a draw, run up to `numLights = (int) lights.size()`, stays inside the
light list. -/
theorem lightUniforms_range (shader : ShaderProgram)
    (lights : List (ComponentRef LightComponent)) :
    ∃ calls, lightUniforms shader lights (List.range (toInt lights.length).toNat) = some calls ∧
      (∀ c ∈ calls, c.isSceneCall = true ∧ c.isOutput = false ∧
        ∃ i, i < (toInt lights.length).toNat ∧ lightIndex c = some i) ∧
      (∀ i, i < (toInt lights.length).toNat → ∃ c ∈ calls, lightIndex c = some i) := by
  have hle := toInt_toNat_le lights.length
  obtain ⟨calls, h1, h2, h3⟩ := lightUniforms_spec shader lights
    (List.range (toInt lights.length).toNat)
    (fun i hi => lt_of_lt_of_le (List.mem_range.mp hi) hle)
  refine ⟨calls, h1, ?_, ?_⟩
  · intro c hc
    obtain ⟨a, b, i, hi, hidx⟩ := h2 c hc
    exact ⟨a, b, i, List.mem_range.mp hi, hidx⟩
  · intro i hi
    exact h3 i (List.mem_range.mpr hi)

/-- Drawing one command succeeds and issues only draw-protocol calls. -/
theorem drawCommand_spec (VP : Mat4) (cameraForward : Vec4)
    (lights : List (ComponentRef LightComponent)) (command : RenderCommand) :
    ∃ calls, drawCommand VP cameraForward (toInt lights.length) lights command = some calls ∧
      ∀ c ∈ calls, c.isSceneCall = true := by
  obtain ⟨perLight, h1, h2, _⟩ := lightUniforms_range command.material.shader lights
  cases hlit : command.material.lit with
  | false =>
    refine ⟨_, by simp only [drawCommand, hlit]; rfl, ?_⟩
    intro c hc
    simp only [List.mem_cons, List.mem_singleton, List.not_mem_nil, or_false] at hc
    rcases hc with rfl | rfl | rfl <;> rfl
  | true =>
    refine ⟨_, by simp only [drawCommand, hlit, h1]; rfl, ?_⟩
    intro c hc
    rcases List.mem_append.mp hc with hc | hc
    · rcases List.mem_append.mp hc with hc | hc
      · simp only [List.mem_cons, List.mem_singleton, List.not_mem_nil, or_false] at hc
        rcases hc with rfl | rfl | rfl | rfl | rfl | rfl | rfl | rfl | rfl <;> rfl
      · exact (h2 c hc).1
    · simp only [List.mem_singleton] at hc
      subst hc
      rfl

/-- A draw loop succeeds and issues only draw-protocol calls. -/
theorem drawCommands_spec (VP : Mat4) (cameraForward : Vec4)
    (lights : List (ComponentRef LightComponent)) (commands : List RenderCommand) :
    ∃ calls, drawCommands VP cameraForward (toInt lights.length) lights commands = some calls ∧
      ∀ c ∈ calls, c.isSceneCall = true := by
  induction commands with
  | nil => exact ⟨[], rfl, by simp⟩
  | cons command rest ih =>
    obtain ⟨calls, h1, h2⟩ := drawCommand_spec VP cameraForward lights command
    obtain ⟨more, h3, h4⟩ := ih
    refine ⟨calls ++ more, by simp only [drawCommands, h1, h3], ?_⟩
    intro c hc
    rcases List.mem_append.mp hc with hc | hc
    · exact h2 c hc
    · exact h4 c hc

/-- The opaque, sky and transparent passes succeed and issue only draw-protocol calls. -/
theorem scenePasses_spec (r : ForwardRenderer) (camera : ComponentRef CameraComponent) :
    ∃ scene, scenePasses r camera = some scene ∧ ∀ c ∈ scene, c.isSceneCall = true := by
  obtain ⟨opaqueCalls, h1, h2⟩ := drawCommands_spec
    (camera.component.projectionMatrix.mul camera.component.viewMatrix) (cameraForward camera)
    r.lights r.opaqueCommands
  obtain ⟨transparentCalls, h3, h4⟩ := drawCommands_spec
    (camera.component.projectionMatrix.mul camera.component.viewMatrix) (cameraForward camera)
    r.lights r.transparentCommands
  refine ⟨opaqueCalls ++ skyPass r camera ++ transparentCalls,
    by simp only [scenePasses, h1, h3], ?_⟩
  intro c hc
  rcases List.mem_append.mp hc with hc | hc
  · rcases List.mem_append.mp hc with hc | hc
    · exact h2 c hc
    · unfold skyPass at hc
      cases hsky : r.skyMaterial with
      | none => simp [hsky] at hc
      | some m =>
        simp only [hsky, List.mem_cons, List.mem_singleton, List.not_mem_nil, or_false] at hc
        rcases hc with rfl | rfl | rfl <;> rfl
  · exact h4 c hc

/-- With a camera in the world, `ForwardRenderer::render` returns: its calls are the prelude,
the scene passes, then the crash and boost passes, on the prepared renderer. -/
theorem render_eq (stdSort : (RenderCommand → RenderCommand → Bool) →
    List RenderCommand → List RenderCommand) (r : ForwardRenderer) (world : World)
    (camera : ComponentRef CameraComponent) (hc : (collect world).camera = some camera) :
    ∃ scene, scenePasses (r.prepared stdSort world camera) camera = some scene ∧
      (∀ c ∈ scene, c.isSceneCall = true) ∧
      r.render stdSort world =
        some ((boostPass (crashPass (r.prepared stdSort world camera)).1).1,
          framePrelude (r.prepared stdSort world camera) ++ scene ++
            (crashPass (r.prepared stdSort world camera)).2 ++
            (boostPass (crashPass (r.prepared stdSort world camera)).1).2) := by
  obtain ⟨scene, h1, h2⟩ := scenePasses_spec (r.prepared stdSort world camera) camera
  refine ⟨scene, h1, h2, ?_⟩
  unfold ForwardRenderer.prepared at h1 ⊢
  simp only [ForwardRenderer.render, hc, h1]

/-- A draw-protocol call is no framebuffer bind and no `glDrawArrays`, and leaves the bound
draw framebuffer as it is. -/
theorem isSceneCall_spec (c : GLCall) (h : c.isSceneCall = true) (bound : Nat) :
    c.isBindFramebuffer = false ∧ c.isDrawArrays = false ∧ boundAfter bound c = bound := by
  cases c <;> simp_all [GLCall.isSceneCall, GLCall.isBindFramebuffer, GLCall.isDrawArrays,
    boundAfter]

/-- The output calls of a trace of draw-protocol calls all write to the framebuffer bound when
the trace starts. -/
theorem outputTargets_scene (bound : Nat) (calls : List GLCall)
    (h : ∀ c ∈ calls, c.isSceneCall = true) :
    ∀ p ∈ outputTargets bound calls, p.2 = bound := by
  induction calls with
  | nil => simp [outputTargets]
  | cons c rest ih =>
    intro p hp
    have hc := isSceneCall_spec c (h c (List.mem_cons_self c rest)) bound
    simp only [outputTargets, hc.2.2, List.mem_append] at hp
    rcases hp with hp | hp
    · split at hp
      · simp only [List.mem_singleton] at hp
        rw [hp]
      · simp at hp
    · exact ih (fun d hd => h d (List.mem_cons_of_mem c hd)) p hp

/-- The crash and boost branches only replace the post-process material: the command lists,
the light list and the boost path are kept. -/
theorem postprocess_keeps (r : ForwardRenderer) :
    (crashPass r).1.transparentCommands = r.transparentCommands ∧
    (crashPass r).1.opaqueCommands = r.opaqueCommands ∧
    (crashPass r).1.boostPath = r.boostPath ∧
    (boostPass r).1.transparentCommands = r.transparentCommands ∧
    (boostPass r).1.opaqueCommands = r.opaqueCommands := by
  refine ⟨?_, ?_, ?_, ?_, ?_⟩
  · unfold crashPass; split <;> rfl
  · unfold crashPass; split <;> rfl
  · unfold crashPass; split <;> rfl
  · unfold boostPass; split
    · split <;> rfl
    · rfl
  · unfold boostPass; split
    · split <;> rfl
    · rfl

/-! ## Properties of `ForwardRenderer::render` -/

/-- C1: for every implementation of `std::sort` that meets its contract, every renderer and
every world with a camera, `render` returns, and its transparent list after the sort step is
the sort of the collected transparent list: a permutation of it, in descending order of the
comparator key `dot(localToWorld * (center, 1), cameraForward)` (exact arithmetic): a command
placed before another has a key at least as large. -/
theorem render_transparent_sorted (stdSort : (RenderCommand → RenderCommand → Bool) →
    List RenderCommand → List RenderCommand) (hsort : StdSortContract stdSort)
    (r : ForwardRenderer) (world : World) (camera : ComponentRef CameraComponent)
    (hc : (collect world).camera = some camera) :
    ∃ r1 calls, r.render stdSort world = some (r1, calls) ∧
      r1.transparentCommands =
        stdSort (transparentCompare (cameraForward camera)) (collect world).transparentCommands ∧
      r1.transparentCommands.Perm (collect world).transparentCommands ∧
      r1.transparentCommands.Pairwise (fun A B =>
        commandDistance (cameraForward camera) A ≥ commandDistance (cameraForward camera) B) := by
  obtain ⟨scene, _, _, hrender⟩ := render_eq stdSort r world camera hc
  obtain ⟨hperm, hpair⟩ := hsort (transparentCompare (cameraForward camera))
    (transparentCompare_strictWeak (cameraForward camera)) (collect world).transparentCommands
  have hkeep : (boostPass (crashPass (r.prepared stdSort world camera)).1).1.transparentCommands
      = stdSort (transparentCompare (cameraForward camera))
          (collect world).transparentCommands := by
    rw [(postprocess_keeps _).2.2.2.1, (postprocess_keeps _).1]
    rfl
  refine ⟨_, _, hrender, hkeep, ?_, ?_⟩
  · rw [hkeep]; exact hperm
  · rw [hkeep]
    refine hpair.imp ?_
    intro A B hAB
    simpa [transparentCompare] using hAB

/-- C1, witness: with insertion sort as `std::sort`, the example world, whose two transparent
commands are collected with keys 2 then 5 (mesh handles 1 then 2), is rendered with them in the
order 5 then 2: after the clear, mesh 2 is drawn, then mesh 1. -/
theorem render_transparent_sorted_witness :
    (∃ r1 calls, ForwardRenderer.render insertionSort {} exampleWorld = some (r1, calls) ∧
      r1.transparentCommands =
        insertionSort (transparentCompare (cameraForward exampleCameraRef))
          (collect exampleWorld).transparentCommands ∧
      r1.transparentCommands.Perm (collect exampleWorld).transparentCommands ∧
      r1.transparentCommands.Pairwise (fun A B =>
        commandDistance (cameraForward exampleCameraRef) A ≥
          commandDistance (cameraForward exampleCameraRef) B)) ∧
    (collect exampleWorld).transparentCommands.map
        (commandDistance (cameraForward exampleCameraRef)) = [2, 5] ∧
    (insertionSort (transparentCompare (cameraForward exampleCameraRef))
        (collect exampleWorld).transparentCommands).map
        (commandDistance (cameraForward exampleCameraRef)) = [5, 2] ∧
    (ForwardRenderer.render insertionSort {} exampleWorld).map
        (fun result => result.2.filter GLCall.isOutput) =
      some [GLCall.clear (GL_COLOR_BUFFER_BIT ||| GL_DEPTH_BUFFER_BIT), GLCall.meshDraw ⟨2⟩,
        GLCall.meshDraw ⟨1⟩] := by
  refine ⟨render_transparent_sorted insertionSort insertionSort_contract {} exampleWorld
    exampleCameraRef (by decide), ?_, ?_, ?_⟩ <;>
  norm_num [ForwardRenderer.render, scenePasses, drawCommands, drawCommand, skyPass,
    framePrelude, crashPass, boostPass, collect, exampleWorld, collectStep, exampleCamera,
    exampleGlass, Entity.getCamera, Entity.getMeshRenderer, Entity.getLight, makeCommand,
    insertionSort, insertSorted, transparentCompare, commandDistance, cameraForward,
    exampleCameraRef, Mat4.mulVec, Mat4.translation, Mat4.identity, Vec4.add, Vec4.scale,
    Vec4.dot, Vec4.toVec3, Vec4.ofVec3, GLCall.isOutput, List.filter_cons]

/-- C3: in a world where no entity has a camera component, `render` returns without issuing
any call, for every renderer state (configuration and effect flags) and every `std::sort`. -/
theorem render_without_camera (stdSort : (RenderCommand → RenderCommand → Bool) →
    List RenderCommand → List RenderCommand) (r : ForwardRenderer) (world : World)
    (h : ∀ e ∈ world, e.camera = none) :
    ∃ r1, r.render stdSort world = some (r1, []) := by
  have hcam : (collect world).camera = none := by
    rw [(collect_eq world).2.2.2, List.findSome?_eq_none_iff]
    intro e he
    simp [Entity.getCamera, h e he]
  exact ⟨_, by simp only [ForwardRenderer.render, hcam]; rfl⟩

/-- C3, witness: a world with one object and no camera, rendered with the post-process
configured and both effect flags set, issues no call. -/
theorem render_without_camera_witness :
    (∀ e ∈ exampleWorldNoCamera, e.camera = none) ∧
    ∃ r1, ForwardRenderer.render insertionSort
      { ForwardRenderer.initialize {} exampleResources (800, 600)
          { sky := some "sky.jpg", postprocess := some "crash.frag",
            energyPostProcess := some "boost.frag" } with
        crashingEffect := true, boostingEffect := true } exampleWorldNoCamera = some (r1, []) :=
  ⟨by decide, render_without_camera insertionSort _ exampleWorldNoCamera (by decide)⟩

/-- A trace of draw-protocol calls holds no `glDrawArrays`. -/
theorem filter_isDrawArrays_scene (calls : List GLCall)
    (h : ∀ c ∈ calls, c.isSceneCall = true) : calls.filter GLCall.isDrawArrays = [] := by
  rw [List.filter_eq_nil_iff]
  intro c hc
  simp [(isSceneCall_spec c (h c hc) 0).2.1]

/-- The prelude holds no `glDrawArrays`. -/
theorem framePrelude_filter_isDrawArrays (r : ForwardRenderer) :
    (framePrelude r).filter GLCall.isDrawArrays = [] := by
  unfold framePrelude
  split <;> rfl

/-- The crash branch issues one `glDrawArrays` when the crash flag is set and a post-process
material exists, and none otherwise. -/
theorem crashPass_filter_isDrawArrays (r : ForwardRenderer) :
    ((crashPass r).2.filter GLCall.isDrawArrays).length =
      (if r.crashingEffect = true ∧ r.postprocessMaterial.isSome = true then 1 else 0) := by
  unfold crashPass
  cases r.crashingEffect <;> cases r.postprocessMaterial <;> rfl

/-- The boost branch does nothing when `boostPath` is empty. -/
theorem boostPass_empty_path (r : ForwardRenderer) (h : r.boostPath = "") :
    boostPass r = (r, []) := by
  simp [boostPass, h]

/-- C4: a renderer initialized from a fresh one with a configuration that has the key
`postprocess` and not the key `energyPostProcess` has an empty `boostPath`; for every world
with a camera, a render call with the boost flag set, whatever the crash flag, returns and never
executes the boost branch: the boost pass issues no call, the calls end with those of the crash
pass, and the number of `glDrawArrays` calls is 1 if the crash flag is set and 0 otherwise. -/
theorem boost_suppressed_without_path (stdSort : (RenderCommand → RenderCommand → Bool) →
    List RenderCommand → List RenderCommand) (res : Resources) (windowSize : Int × Int)
    (sky : Option String) (postprocess : String) (crash : Bool) (r : ForwardRenderer)
    (hr : r = ( ForwardRenderer.initialize {} res windowSize
      { sky := sky, postprocess := some postprocess, energyPostProcess := none }).withEffects
        crash true)
    (world : World) (camera : ComponentRef CameraComponent)
    (hc : (collect world).camera = some camera) :
    r.boostPath = "" ∧
    ∃ r1 scene, scenePasses (r.prepared stdSort world camera) camera = some scene ∧
      r.render stdSort world =
        some (r1, framePrelude r ++ scene ++ (crashPass (r.prepared stdSort world camera)).2) ∧
      (boostPass (crashPass (r.prepared stdSort world camera)).1).2 = [] ∧
      ((framePrelude r ++ scene ++ (crashPass (r.prepared stdSort world camera)).2).filter
        GLCall.isDrawArrays).length = (if crash = true then 1 else 0) := by
  have hpath : r.boostPath = "" := by
    subst hr
    cases sky <;> rfl
  have hmat : ∃ m, r.postprocessMaterial = some m := by
    subst hr
    cases sky <;> exact ⟨_, rfl⟩
  have hcrash : r.crashingEffect = crash := by
    subst hr
    rfl
  obtain ⟨scene, hscene, hcalls, hrender⟩ := render_eq stdSort r world camera hc
  have hboost : boostPass (crashPass (r.prepared stdSort world camera)).1 =
      ((crashPass (r.prepared stdSort world camera)).1, []) :=
    boostPass_empty_path _ (by rw [(postprocess_keeps _).2.2.1]; exact hpath)
  refine ⟨hpath, (crashPass (r.prepared stdSort world camera)).1, scene, hscene, ?_, ?_, ?_⟩
  · rw [hrender, hboost, List.append_nil]
    rfl
  · rw [hboost]
  · obtain ⟨m, hm⟩ := hmat
    have hpm : (r.prepared stdSort world camera).postprocessMaterial = some m := hm
    have hce : (r.prepared stdSort world camera).crashingEffect = crash := hcrash
    rw [List.filter_append, List.filter_append, filter_isDrawArrays_scene scene hcalls,
      framePrelude_filter_isDrawArrays, List.nil_append, List.nil_append,
      crashPass_filter_isDrawArrays, hpm, hce]
    simp

/-- C4, witness: a renderer configured with `postprocess` only, boost and crash flags set,
rendering the example world. -/
theorem boost_suppressed_without_path_witness :
    (( ForwardRenderer.initialize {} exampleResources (800, 600)
      { sky := none, postprocess := some "crash.frag", energyPostProcess := none }).withEffects
        true true).boostPath = "" ∧
    ∃ r1 scene,
      scenePasses ((( ForwardRenderer.initialize {} exampleResources (800, 600)
        { sky := none, postprocess := some "crash.frag",
          energyPostProcess := none }).withEffects true true).prepared insertionSort
            exampleWorld exampleCameraRef) exampleCameraRef = some scene ∧
      (( ForwardRenderer.initialize {} exampleResources (800, 600)
        { sky := none, postprocess := some "crash.frag",
          energyPostProcess := none }).withEffects true true).render insertionSort
            exampleWorld =
        some (r1, framePrelude (( ForwardRenderer.initialize {} exampleResources (800, 600)
          { sky := none, postprocess := some "crash.frag",
            energyPostProcess := none }).withEffects true true) ++ scene ++
          (crashPass ((( ForwardRenderer.initialize {} exampleResources (800, 600)
            { sky := none, postprocess := some "crash.frag",
              energyPostProcess := none }).withEffects true true).prepared insertionSort
                exampleWorld exampleCameraRef)).2) ∧
      (boostPass (crashPass ((( ForwardRenderer.initialize {} exampleResources (800, 600)
        { sky := none, postprocess := some "crash.frag",
          energyPostProcess := none }).withEffects true true).prepared insertionSort
            exampleWorld exampleCameraRef)).1).2 = [] ∧
      ((framePrelude (( ForwardRenderer.initialize {} exampleResources (800, 600)
          { sky := none, postprocess := some "crash.frag",
            energyPostProcess := none }).withEffects true true) ++ scene ++
          (crashPass ((( ForwardRenderer.initialize {} exampleResources (800, 600)
            { sky := none, postprocess := some "crash.frag",
              energyPostProcess := none }).withEffects true true).prepared insertionSort
                exampleWorld exampleCameraRef)).2).filter GLCall.isDrawArrays).length =
        (if true = true then 1 else 0) :=
  boost_suppressed_without_path insertionSort exampleResources (800, 600) none "crash.frag"
    true _ rfl exampleWorld exampleCameraRef (by decide)

/-- The prelude of `render`: five state calls, the bind of the post-process framebuffer exactly
when the renderer is `offscreen`, then the clear. -/
theorem framePrelude_eq (r : ForwardRenderer) :
    framePrelude r =
      [ GLCall.viewport 0 0 r.windowSize.1 r.windowSize.2, GLCall.clearColor 0 0 0 1,
        GLCall.clearDepth 1, GLCall.colorMask true true true true, GLCall.depthMask true ]
      ++ (if r.offscreen = true then
            [GLCall.bindFramebuffer GL_DRAW_FRAMEBUFFER r.postprocessFrameBuffer]
          else [])
      ++ [GLCall.clear (GL_COLOR_BUFFER_BIT ||| GL_DEPTH_BUFFER_BIT)] := by
  unfold framePrelude ForwardRenderer.offscreen
  cases r.postprocessMaterial <;> cases r.crashingEffect <;> cases r.boostingEffect <;> rfl

/-- The output calls of the prelude followed by draw-protocol calls: the clear, then the output
calls of the scene, all on the framebuffer left bound by the prelude. -/
theorem outputTargets_prelude (r : ForwardRenderer) (bound : Nat) (scene : List GLCall) :
    outputTargets bound (framePrelude r ++ scene) =
      (GLCall.clear (GL_COLOR_BUFFER_BIT ||| GL_DEPTH_BUFFER_BIT),
        if r.offscreen = true then r.postprocessFrameBuffer else bound) ::
      outputTargets (if r.offscreen = true then r.postprocessFrameBuffer else bound) scene := by
  rw [framePrelude_eq]
  cases r.offscreen <;>
    simp [outputTargets, boundAfter, GLCall.isOutput]

/-- C10: for every world with a camera, `render` returns, and its calls start with the prelude
and the opaque, sky and transparent passes. The post-process framebuffer is bound in them if and
only if a post-process material exists and the crash or the boost flag is set; it is then bound
once, in the prelude, right before the clear. The clear and every draw of the three passes write
to the post-process framebuffer in that case, and to the framebuffer bound on entry otherwise. -/
theorem render_framebuffer_bind (stdSort : (RenderCommand → RenderCommand → Bool) →
    List RenderCommand → List RenderCommand) (r : ForwardRenderer) (world : World)
    (camera : ComponentRef CameraComponent) (hc : (collect world).camera = some camera)
    (bound : Nat) :
    ∃ r1 scene post,
      r.render stdSort world = some (r1, framePrelude r ++ scene ++ post) ∧
      scenePasses (r.prepared stdSort world camera) camera = some scene ∧
      framePrelude r =
        [ GLCall.viewport 0 0 r.windowSize.1 r.windowSize.2, GLCall.clearColor 0 0 0 1,
          GLCall.clearDepth 1, GLCall.colorMask true true true true, GLCall.depthMask true ]
        ++ (if r.offscreen = true then
              [GLCall.bindFramebuffer GL_DRAW_FRAMEBUFFER r.postprocessFrameBuffer]
            else [])
        ++ [GLCall.clear (GL_COLOR_BUFFER_BIT ||| GL_DEPTH_BUFFER_BIT)] ∧
      ((∃ c ∈ framePrelude r ++ scene, c.isBindFramebuffer = true) ↔ r.offscreen = true) ∧
      (GLCall.clear (GL_COLOR_BUFFER_BIT ||| GL_DEPTH_BUFFER_BIT),
          if r.offscreen = true then r.postprocessFrameBuffer else bound) ∈
        outputTargets bound (framePrelude r ++ scene) ∧
      ∀ p ∈ outputTargets bound (framePrelude r ++ scene),
        p.2 = if r.offscreen = true then r.postprocessFrameBuffer else bound := by
  obtain ⟨scene, hscene, hcalls, hrender⟩ := render_eq stdSort r world camera hc
  refine ⟨(boostPass (crashPass (r.prepared stdSort world camera)).1).1, scene,
    (crashPass (r.prepared stdSort world camera)).2 ++
      (boostPass (crashPass (r.prepared stdSort world camera)).1).2,
    ?_, hscene, framePrelude_eq r, ?_, ?_, ?_⟩
  · rw [hrender, List.append_assoc (framePrelude _ ++ scene)]
    rfl
  · constructor
    · rintro ⟨c, hc, hbind⟩
      rcases List.mem_append.mp hc with hc | hc
      · rw [framePrelude_eq] at hc
        cases hoff : r.offscreen with
        | true => rfl
        | false =>
          simp only [hoff, Bool.false_eq_true, if_false, List.append_nil, List.cons_append,
            List.nil_append, List.mem_cons, List.mem_singleton, List.not_mem_nil,
            or_false] at hc
          rcases hc with rfl | rfl | rfl | rfl | rfl | rfl <;>
            simp [GLCall.isBindFramebuffer] at hbind
      · rw [(isSceneCall_spec c (hcalls c hc) 0).1] at hbind
        cases hbind
    · intro hoff
      refine ⟨GLCall.bindFramebuffer GL_DRAW_FRAMEBUFFER r.postprocessFrameBuffer, ?_, rfl⟩
      rw [framePrelude_eq, hoff]
      simp
  · rw [outputTargets_prelude]
    exact List.mem_cons_self _ _
  · intro p hp
    rw [outputTargets_prelude] at hp
    rcases List.mem_cons.mp hp with rfl | hp
    · rfl
    · exact outputTargets_scene _ scene hcalls p hp

/-- C10, witness: the example world rendered with a post-process configuration and the crash
flag set, from a context whose bound draw framebuffer is 0. -/
theorem render_framebuffer_bind_witness :
    (( ForwardRenderer.initialize {} exampleResources (800, 600)
      { postprocess := some "crash.frag" }).withEffects true false).offscreen = true ∧
    ∃ r1 scene post,
      (( ForwardRenderer.initialize {} exampleResources (800, 600)
        { postprocess := some "crash.frag" }).withEffects true false).render insertionSort
          exampleWorld =
        some (r1, framePrelude (( ForwardRenderer.initialize {} exampleResources (800, 600)
          { postprocess := some "crash.frag" }).withEffects true false) ++ scene ++ post) ∧
      ∀ p ∈ outputTargets 0 (framePrelude (( ForwardRenderer.initialize {} exampleResources
          (800, 600) { postprocess := some "crash.frag" }).withEffects true false) ++ scene),
        p.2 = 3 := by
  refine ⟨by decide, ?_⟩
  obtain ⟨r1, scene, post, h1, _, _, _, _, h2⟩ :=
    render_framebuffer_bind insertionSort (( ForwardRenderer.initialize {} exampleResources
      (800, 600) { postprocess := some "crash.frag" }).withEffects true false) exampleWorld
      exampleCameraRef (by decide) 0
  exact ⟨r1, scene, post, h1, h2⟩

/-! ## Light uniforms of a lit draw -/

/-- The light list has one entry per entity with a light component. -/
theorem lights_length (world : World) :
    (collect world).lights.length = (world.filter fun e => e.light.isSome).length := by
  rw [(collect_eq world).2.2.1]
  induction world with
  | nil => simp
  | cons e rest ih =>
    cases hl : e.light with
    | none =>
      have hg : e.getLight = none := by simp [Entity.getLight, hl]
      simp [List.filterMap_cons, List.filter_cons, hg, hl, ih]
    | some l =>
      have hg : e.getLight = some ⟨l, e⟩ := by simp [Entity.getLight, hl]
      simp [List.filterMap_cons, List.filter_cons, hg, hl, ih]

/-- The calls of a lit draw: material setup, the eight scene uniforms, the calls of the light
loop, the mesh draw. -/
theorem drawCommand_lit (VP : Mat4) (cameraForward : Vec4) (numLights : Int)
    (lights : List (ComponentRef LightComponent)) (command : RenderCommand)
    (hlit : command.material.lit = true) (perLight : List GLCall)
    (h : lightUniforms command.material.shader lights (List.range numLights.toNat) =
      some perLight) :
    drawCommand VP cameraForward numLights lights command =
      some ([ GLCall.materialSetup command.material,
              GLCall.shaderSet command.material.shader (.named "VP") (.mat4 VP),
              GLCall.shaderSet command.material.shader (.named "eye")
                (.vec3 ⟨cameraForward.x, cameraForward.y, cameraForward.z⟩),
              GLCall.shaderSet command.material.shader (.named "light_count") (.int numLights),
              GLCall.shaderSet command.material.shader (.named "M") (.mat4 command.localToWorld),
              GLCall.shaderSet command.material.shader (.named "M_IT")
                (.inverseTranspose command.localToWorld),
              GLCall.shaderSet command.material.shader (.named "sky.top")
                (.vec3 ⟨0, 1 / 10, 1 / 2⟩),
              GLCall.shaderSet command.material.shader (.named "sky.horizon")
                (.vec3 ⟨3 / 10, 3 / 10, 3 / 10⟩),
              GLCall.shaderSet command.material.shader (.named "sky.bottom")
                (.vec3 ⟨1 / 10, 1 / 10, 1 / 10⟩) ]
            ++ perLight ++ [GLCall.meshDraw command.mesh]) := by
  simp only [drawCommand, hlit, h]
  rfl

/-- A call of `ForwardRenderer::render` always returns: the light loops never read outside the
light list. -/
theorem render_isSome (stdSort : (RenderCommand → RenderCommand → Bool) →
    List RenderCommand → List RenderCommand) (r : ForwardRenderer) (world : World) :
    ∃ result, r.render stdSort world = some result := by
  cases hc : (collect world).camera with
  | none => exact ⟨_, by simp only [ForwardRenderer.render, hc]; rfl⟩
  | some camera =>
    obtain ⟨scene, _, _, h⟩ := render_eq stdSort r world camera hc
    exact ⟨_, h⟩

/-- C7: a draw of a command with a lit material, with the light list collected from a world of
fewer than `2 ^ 31` light entities, completes; it binds `light_count` once, to the number of
entities with a light component, and binds `lights[i].*` uniforms exactly for the indices
`i < light_count`. With no light entity the calls are the material setup, the eight scene
uniforms with `light_count = 0`, and the mesh draw: no `lights[i].*` uniform and no read of the
light list. A render call returns for every world. -/
theorem lit_draw_light_count (world : World) (VP : Mat4) (cameraForward : Vec4)
    (command : RenderCommand) (hlit : command.material.lit = true)
    (hcount : (world.filter fun e => e.light.isSome).length < 2 ^ 31) :
    (∀ stdSort r, ∃ result, ForwardRenderer.render stdSort r world = some result) ∧
    ∃ calls,
      drawCommand VP cameraForward (toInt (collect world).lights.length) (collect world).lights
        command = some calls ∧
      GLCall.shaderSet command.material.shader (.named "light_count")
        (.int ((world.filter fun e => e.light.isSome).length : Int)) ∈ calls ∧
      (∀ shader value, GLCall.shaderSet shader (.named "light_count") value ∈ calls →
        value = .int ((world.filter fun e => e.light.isSome).length : Int)) ∧
      (∀ i, (∃ c ∈ calls, lightIndex c = some i) ↔
        i < (world.filter fun e => e.light.isSome).length) ∧
      ((∀ e ∈ world, e.light = none) →
        calls =
          [ GLCall.materialSetup command.material,
            GLCall.shaderSet command.material.shader (.named "VP") (.mat4 VP),
            GLCall.shaderSet command.material.shader (.named "eye")
              (.vec3 ⟨cameraForward.x, cameraForward.y, cameraForward.z⟩),
            GLCall.shaderSet command.material.shader (.named "light_count") (.int 0),
            GLCall.shaderSet command.material.shader (.named "M") (.mat4 command.localToWorld),
            GLCall.shaderSet command.material.shader (.named "M_IT")
              (.inverseTranspose command.localToWorld),
            GLCall.shaderSet command.material.shader (.named "sky.top")
              (.vec3 ⟨0, 1 / 10, 1 / 2⟩),
            GLCall.shaderSet command.material.shader (.named "sky.horizon")
              (.vec3 ⟨3 / 10, 3 / 10, 3 / 10⟩),
            GLCall.shaderSet command.material.shader (.named "sky.bottom")
              (.vec3 ⟨1 / 10, 1 / 10, 1 / 10⟩),
            GLCall.meshDraw command.mesh ]) := by
  refine ⟨fun stdSort r => render_isSome stdSort r world, ?_⟩
  have hlen := lights_length world
  rw [← hlen] at hcount ⊢
  have hint := toInt_of_lt _ hcount
  have hnat : (toInt (collect world).lights.length).toNat = (collect world).lights.length := by
    rw [hint]; exact Int.toNat_ofNat _
  obtain ⟨perLight, h1, h2, h3⟩ :=
    lightUniforms_range command.material.shader (collect world).lights
  rw [hnat] at h2 h3
  refine ⟨_, drawCommand_lit VP cameraForward _ _ command hlit perLight h1, ?_, ?_, ?_, ?_⟩
  · rw [hint]
    simp
  · intro shader value hmem
    rw [hint] at hmem
    rcases List.mem_append.mp hmem with hmem | hmem
    · rcases List.mem_append.mp hmem with hmem | hmem
      · simp only [List.mem_cons, List.mem_singleton, List.not_mem_nil, or_false] at hmem
        rcases hmem with h | h | h | h | h | h | h | h | h <;> simp at h
        exact h.2
      · obtain ⟨_, _, i, _, hidx⟩ := h2 _ hmem
        simp [lightIndex] at hidx
    · simp at hmem
  · intro i
    constructor
    · rintro ⟨c, hc, hidx⟩
      rcases List.mem_append.mp hc with hc | hc
      · rcases List.mem_append.mp hc with hc | hc
        · simp only [List.mem_cons, List.mem_singleton, List.not_mem_nil, or_false] at hc
          rcases hc with rfl | rfl | rfl | rfl | rfl | rfl | rfl | rfl | rfl <;>
            simp [lightIndex] at hidx
        · obtain ⟨_, _, j, hj, hidx2⟩ := h2 c hc
          rw [hidx] at hidx2
          cases hidx2
          exact hj
      · simp only [List.mem_singleton] at hc
        subst hc
        simp [lightIndex] at hidx
    · intro hi
      obtain ⟨c, hc, hidx⟩ := h3 i hi
      exact ⟨c, List.mem_append_left _ (List.mem_append_right _ hc), hidx⟩
  · intro hnone
    have hzero : (collect world).lights = [] := by
      rw [(collect_eq world).2.2.1, List.filterMap_eq_nil_iff]
      intro e he
      simp [Entity.getLight, hnone e he]
    rw [hzero] at h1 hint
    simp only [List.length_nil] at h1 hint
    have hper : perLight = [] := by
      have : lightUniforms command.material.shader [] (List.range (toInt 0).toNat) = some [] := by
        rw [hint]; rfl
      rw [this] at h1
      exact (Option.some.inj h1).symm
    rw [hper, hzero, List.length_nil, hint]
    rfl

/-- C7, witness: the example world with a camera, a lit object and no light: the draw of the
lit command returns, with `light_count = 0` and no `lights[i].*` uniform. -/
theorem lit_draw_light_count_witness :
    (∀ e ∈ exampleWorldLit, e.light = none) ∧
    (collect exampleWorldLit).opaqueCommands = [exampleLitCommand] ∧
    (∀ stdSort r, ∃ result, ForwardRenderer.render stdSort r exampleWorldLit = some result) ∧
    drawCommand Mat4.identity (cameraForward exampleCameraRef)
        (toInt (collect exampleWorldLit).lights.length) (collect exampleWorldLit).lights
        exampleLitCommand =
      some
        [ GLCall.materialSetup exampleLitCommand.material,
          GLCall.shaderSet exampleLitCommand.material.shader (.named "VP")
            (.mat4 Mat4.identity),
          GLCall.shaderSet exampleLitCommand.material.shader (.named "eye")
            (.vec3 ⟨(cameraForward exampleCameraRef).x, (cameraForward exampleCameraRef).y,
              (cameraForward exampleCameraRef).z⟩),
          GLCall.shaderSet exampleLitCommand.material.shader (.named "light_count") (.int 0),
          GLCall.shaderSet exampleLitCommand.material.shader (.named "M")
            (.mat4 exampleLitCommand.localToWorld),
          GLCall.shaderSet exampleLitCommand.material.shader (.named "M_IT")
            (.inverseTranspose exampleLitCommand.localToWorld),
          GLCall.shaderSet exampleLitCommand.material.shader (.named "sky.top")
            (.vec3 ⟨0, 1 / 10, 1 / 2⟩),
          GLCall.shaderSet exampleLitCommand.material.shader (.named "sky.horizon")
            (.vec3 ⟨3 / 10, 3 / 10, 3 / 10⟩),
          GLCall.shaderSet exampleLitCommand.material.shader (.named "sky.bottom")
            (.vec3 ⟨1 / 10, 1 / 10, 1 / 10⟩),
          GLCall.meshDraw exampleLitCommand.mesh ] := by
  obtain ⟨h1, calls, h2, _, _, _, h3⟩ := lit_draw_light_count exampleWorldLit Mat4.identity
    (cameraForward exampleCameraRef) exampleLitCommand rfl (by decide)
  rw [h3 (by decide)] at h2
  exact ⟨by decide, rfl, h1, h2⟩

/-! ## The depth computed by the sort comparator -/

/-- The comparator applies `localToWorld` to `center`, which the collection loop has already
set to `localToWorld * (0, 0, 0, 1)`: the local origin is transformed twice. -/
theorem commandDistance_makeCommand (cameraForward : Vec4)
    (meshRenderer : ComponentRef MeshRendererComponent) :
    commandDistance cameraForward (makeCommand meshRenderer) =
      (meshRenderer.owner.localToWorld.mulVec
        (Vec4.ofVec3 (meshRenderer.owner.localToWorld.mulVec ⟨0, 0, 0, 1⟩).toVec3 1)).dot
        cameraForward := rfl

/-- C9, evaluated on the code: for an object scaled by 3 at `(0, 0, -2)` and an unscaled object
at `(0, 0, -3)`, seen by a camera whose forward vector is `(0, 0, -1, 0)`, the projections of
the world-space centers `M * (0, 0, 0, 1)` are 2 and 3, but the comparator computes 8 and 6,
and the sorted list draws the scaled object (handle 1) before the plain one (handle 2). -/
theorem commandDistance_transforms_twice :
    cameraForward exampleCameraRef = ⟨0, 0, -1, 0⟩ ∧
    [exampleScaled, examplePlain].map
      (fun e => (e.localToWorld.mulVec ⟨0, 0, 0, 1⟩).dot (cameraForward exampleCameraRef)) =
        [2, 3] ∧
    (collect exampleWorldScaled).transparentCommands.map
      (commandDistance (cameraForward exampleCameraRef)) = [8, 6] ∧
    (insertionSort (transparentCompare (cameraForward exampleCameraRef))
      (collect exampleWorldScaled).transparentCommands).map (fun c => c.mesh.handle) =
        [1, 2] := by
  refine ⟨?_, ?_, ?_, ?_⟩ <;>
  norm_num [collect, exampleWorldScaled, exampleScaled, examplePlain, collectStep,
    exampleCamera, exampleGlass, Entity.getCamera, Entity.getMeshRenderer, Entity.getLight,
    makeCommand, insertionSort, insertSorted, transparentCompare, commandDistance,
    cameraForward, exampleCameraRef, Mat4.mulVec, Mat4.translation, Mat4.affine, Mat4.identity,
    Vec4.add, Vec4.scale, Vec4.dot, Vec4.toVec3, Vec4.ofVec3]

/-! ## Camera selection -/

/-- C11: the camera `render` uses is the camera component of the first entity in traversal
order that has one: with no camera among the entities `before` an entity `e` that has the
camera component `c`, the selected camera is `c` with owner `e`, whatever the entities `after`
hold; and for every world the camera is null exactly when no entity has a camera component. -/
theorem collect_camera_first (before after : List Entity) (e : Entity) (c : CameraComponent)
    (hbefore : ∀ x ∈ before, x.camera = none) (he : e.camera = some c) :
    (collect (before ++ e :: after)).camera = some ⟨c, e⟩ ∧
    ∀ world : World, (collect world).camera = none ↔ ∀ x ∈ world, x.camera = none := by
  constructor
  · rw [(collect_eq _).2.2.2, List.findSome?_append]
    have h1 : List.findSome? Entity.getCamera before = none := by
      rw [List.findSome?_eq_none_iff]
      intro x hx
      simp [Entity.getCamera, hbefore x hx]
    simp [h1, List.findSome?_cons, Entity.getCamera, he]
  · intro world
    rw [(collect_eq world).2.2.2, List.findSome?_eq_none_iff]
    constructor
    · intro h x hx
      have := h x hx
      simpa [Entity.getCamera] using this
    · intro h x hx
      simp [Entity.getCamera, h x hx]

/-- C11, witness: in a world with an object, then `exampleCamera`, then `exampleCameraB`, the
camera of `exampleCamera` is selected. -/
theorem collect_camera_first_witness :
    (collect exampleWorldTwoCameras).camera = some exampleCameraRef ∧
    ∀ world : World, (collect world).camera = none ↔ ∀ x ∈ world, x.camera = none :=
  collect_camera_first [exampleGlass (Mat4.translation ⟨0, 0, -1⟩) 1] [exampleCameraB]
    exampleCamera ⟨Mat4.identity, Mat4.identity⟩ (by decide) rfl

/-! ## The sky depth remapping and the depth block of `setup` -/

/-- Matrix products compose: `(a * b) * v = a * (b * v)`. -/
theorem Mat4.mul_mulVec (a b : Mat4) (v : Vec4) :
    (a.mul b).mulVec v = a.mulVec (b.mulVec v) := by
  simp only [Mat4.mul, Mat4.mulVec, Vec4.add, Vec4.scale, Vec4.mk.injEq]
  refine ⟨?_, ?_, ?_, ?_⟩ <;> ring

/-- C14: `alwaysBehindTransform * (x, y, z, w) = (x, y, w, w)`, so the transform bound to the
sky shader maps every vertex `v` to the vector with the `x`, `y` and `w` of
`VP * modelMatrix * v` and with `z` equal to that `w`; the depth after division is 1 whenever
`w` is not 0. -/
theorem alwaysBehindTransform_far_plane (x y z w : Scalar) :
    alwaysBehindTransform.mulVec ⟨x, y, z, w⟩ = ⟨x, y, w, w⟩ ∧
    ∀ (camera : ComponentRef CameraComponent) (v : Vec4),
      (skyTransform camera).mulVec v =
        ⟨(((camera.component.projectionMatrix.mul camera.component.viewMatrix).mul
            (skyModelMatrix camera.owner.localToWorld)).mulVec v).x,
         (((camera.component.projectionMatrix.mul camera.component.viewMatrix).mul
            (skyModelMatrix camera.owner.localToWorld)).mulVec v).y,
         (((camera.component.projectionMatrix.mul camera.component.viewMatrix).mul
            (skyModelMatrix camera.owner.localToWorld)).mulVec v).w,
         (((camera.component.projectionMatrix.mul camera.component.viewMatrix).mul
            (skyModelMatrix camera.owner.localToWorld)).mulVec v).w⟩ ∧
      ((skyTransform camera).mulVec v).z = ((skyTransform camera).mulVec v).w ∧
      (((skyTransform camera).mulVec v).w ≠ 0 →
        ((skyTransform camera).mulVec v).z / ((skyTransform camera).mulVec v).w = 1) := by
  have hbehind : ∀ p : Vec4, alwaysBehindTransform.mulVec p = ⟨p.x, p.y, p.w, p.w⟩ := by
    intro p
    simp [alwaysBehindTransform, Mat4.mulVec, Vec4.add, Vec4.scale]
  refine ⟨hbehind ⟨x, y, z, w⟩, ?_⟩
  intro camera v
  have h : (skyTransform camera).mulVec v =
      alwaysBehindTransform.mulVec
        (((camera.component.projectionMatrix.mul camera.component.viewMatrix).mul
          (skyModelMatrix camera.owner.localToWorld)).mulVec v) := by
    simp only [skyTransform, Mat4.mul_mulVec]
  rw [h, hbehind]
  refine ⟨rfl, rfl, ?_⟩
  intro hw
  exact div_self hw

/-- C15: the depth block of `PipelineState::setup`. The depth test is enabled as `s` says. When
`s` disables depth testing the color mask, the depth mask and the depth function of the context
are left as they were; when `s` enables it they become those of `s`. -/
theorem setup_depth_block (s : PipelineState) (c : GLContext) :
    (s.setupOn c).depthTestEnabled = s.depthTesting.enabled ∧
    (s.setupOn c).colorMask = (if s.depthTesting.enabled then s.colorMask else c.colorMask) ∧
    (s.setupOn c).depthMask = (if s.depthTesting.enabled then s.depthMask else c.depthMask) ∧
    (s.setupOn c).depthFunc =
      (if s.depthTesting.enabled then s.depthTesting.function else c.depthFunc) := by
  cases h1 : s.faceCulling.enabled <;> cases h2 : s.depthTesting.enabled <;>
    cases h3 : s.blending.enabled <;>
    simp [PipelineState.setupOn, PipelineState.setup, GLContext.run, GLContext.apply,
      GLContext.setCapability, GL_CULL_FACE, GL_DEPTH_TEST, GL_BLEND, h1, h2, h3]

/-! ## Boost flag without a boost shader -/

/-- The crash branch does nothing when the crash flag is not set. -/
theorem crashPass_flag_off (r : ForwardRenderer) (h : r.crashingEffect = false) :
    crashPass r = (r, []) := by
  simp [crashPass, h]

/-- C16: for a renderer with a post-process material, an empty `boostPath` and a post-process
framebuffer other than the default one (0), in a world with a camera, a render call with the
boost flag set and the crash flag clear returns the prelude and the three scene passes only:
the prelude binds the post-process framebuffer, the clear and every draw write to it, no call
binds framebuffer 0 and there is no `glDrawArrays`, so nothing is drawn to the default
framebuffer. Such a renderer is what `initialize` gives for a configuration with `postprocess`
and with `energyPostProcess` absent or empty. -/
theorem boost_without_path_stays_offscreen (stdSort : (RenderCommand → RenderCommand → Bool) →
    List RenderCommand → List RenderCommand) (r : ForwardRenderer) (world : World)
    (camera : ComponentRef CameraComponent) (hc : (collect world).camera = some camera)
    (bound : Nat) (hmat : r.postprocessMaterial.isSome = true) (hpath : r.boostPath = "")
    (hboost : r.boostingEffect = true) (hcrash : r.crashingEffect = false)
    (hfb : r.postprocessFrameBuffer ≠ 0) :
    (∃ r1 scene, scenePasses (r.prepared stdSort world camera) camera = some scene ∧
      r.render stdSort world = some (r1, framePrelude r ++ scene) ∧
      GLCall.bindFramebuffer GL_DRAW_FRAMEBUFFER r.postprocessFrameBuffer ∈ framePrelude r ∧
      (∀ c ∈ framePrelude r ++ scene, ∀ target, c ≠ GLCall.bindFramebuffer target 0) ∧
      (∀ c ∈ framePrelude r ++ scene, c.isDrawArrays = false) ∧
      (GLCall.clear (GL_COLOR_BUFFER_BIT ||| GL_DEPTH_BUFFER_BIT), r.postprocessFrameBuffer) ∈
        outputTargets bound (framePrelude r ++ scene) ∧
      ∀ p ∈ outputTargets bound (framePrelude r ++ scene),
        p.2 = r.postprocessFrameBuffer ∧ p.2 ≠ 0) ∧
    ∀ (res : Resources) (windowSize : Int × Int) (sky : Option String) (postprocess : String)
      (energy : Option String), energy = none ∨ energy = some "" →
      ( ForwardRenderer.initialize {} res windowSize
          { sky := sky, postprocess := some postprocess,
            energyPostProcess := energy }).boostPath = "" ∧
      ( ForwardRenderer.initialize {} res windowSize
          { sky := sky, postprocess := some postprocess,
            energyPostProcess := energy }).postprocessMaterial.isSome = true ∧
      ( ForwardRenderer.initialize {} res windowSize
          { sky := sky, postprocess := some postprocess,
            energyPostProcess := energy }).postprocessFrameBuffer = res.framebuffer := by
  constructor
  · obtain ⟨scene, hscene, hcalls, hrender⟩ := render_eq stdSort r world camera hc
    have hoff : r.offscreen = true := by
      simp [ForwardRenderer.offscreen, hmat, hboost]
    have hcr : crashPass (r.prepared stdSort world camera) =
        (r.prepared stdSort world camera, []) := crashPass_flag_off _ hcrash
    have hbo : boostPass (r.prepared stdSort world camera) =
        (r.prepared stdSort world camera, []) := boostPass_empty_path _ hpath
    refine ⟨r.prepared stdSort world camera, scene, hscene, ?_, ?_, ?_, ?_, ?_, ?_⟩
    · rw [hrender, hcr, hbo, List.append_nil, List.append_nil]
      rfl
    · rw [framePrelude_eq, hoff]
      simp
    · intro c hmem target heq
      rcases List.mem_append.mp hmem with hmem | hmem
      · rw [framePrelude_eq, hoff] at hmem
        subst heq
        simp only [if_true, List.cons_append, List.nil_append, List.mem_cons,
          List.mem_singleton, List.not_mem_nil, or_false] at hmem
        rcases hmem with h | h | h | h | h | h | h <;> simp at h
        exact hfb h.2.symm
      · have := (isSceneCall_spec c (hcalls c hmem) 0).1
        subst heq
        simp [GLCall.isBindFramebuffer] at this
    · intro c hmem
      rcases List.mem_append.mp hmem with hmem | hmem
      · have := framePrelude_filter_isDrawArrays r
        rw [List.filter_eq_nil_iff] at this
        simpa using this c hmem
      · exact (isSceneCall_spec c (hcalls c hmem) 0).2.1
    · rw [outputTargets_prelude, hoff]
      exact List.mem_cons_self _ _
    · intro p hp
      rw [outputTargets_prelude, hoff] at hp
      have hp2 : p.2 = r.postprocessFrameBuffer := by
        rcases List.mem_cons.mp hp with rfl | hp
        · rfl
        · exact outputTargets_scene _ scene hcalls p hp
      exact ⟨hp2, by rw [hp2]; exact hfb⟩
  · intro res windowSize sky postprocess energy henergy
    rcases henergy with rfl | rfl <;> cases sky <;> exact ⟨rfl, rfl, rfl⟩

/-- C16, witness: a renderer configured with `postprocess` only, boost flag set and crash flag
clear, renders the example world entirely into framebuffer 3. -/
theorem boost_without_path_stays_offscreen_witness :
    ∃ r1 scene,
      (( ForwardRenderer.initialize {} exampleResources (800, 600)
        { postprocess := some "crash.frag" }).withEffects false true).render insertionSort
          exampleWorld =
        some (r1, framePrelude (( ForwardRenderer.initialize {} exampleResources (800, 600)
          { postprocess := some "crash.frag" }).withEffects false true) ++ scene) ∧
      ∀ p ∈ outputTargets 0 (framePrelude (( ForwardRenderer.initialize {} exampleResources
          (800, 600) { postprocess := some "crash.frag" }).withEffects false true) ++ scene),
        p.2 = 3 ∧ p.2 ≠ 0 := by
  obtain ⟨⟨r1, scene, _, h1, _, _, _, _, h2⟩, _⟩ :=
    boost_without_path_stays_offscreen insertionSort (( ForwardRenderer.initialize {}
      exampleResources (800, 600) { postprocess := some "crash.frag" }).withEffects false true)
      exampleWorld exampleCameraRef (by decide) 0 (by decide) (by decide) (by decide)
      (by decide) (by decide)
  exact ⟨r1, scene, h1, h2⟩

/-! ## Ties in the transparency sort -/

/-- The commands collected from `exampleWorldTies` and their order after insertion sort. -/
theorem exampleWorldTies_sorted :
    (collect exampleWorldTies).transparentCommands =
      [makeCommand ⟨⟨⟨1⟩, { transparent := true }⟩,
          exampleGlass (Mat4.translation ⟨0, 0, -1⟩) 1⟩,
        makeCommand ⟨⟨⟨2⟩, { transparent := true }⟩,
          exampleGlass (Mat4.translation ⟨0, 0, -1⟩) 2⟩] ∧
    insertionSort (transparentCompare (cameraForward exampleCameraRef))
        (collect exampleWorldTies).transparentCommands =
      [makeCommand ⟨⟨⟨2⟩, { transparent := true }⟩,
          exampleGlass (Mat4.translation ⟨0, 0, -1⟩) 2⟩,
        makeCommand ⟨⟨⟨1⟩, { transparent := true }⟩,
          exampleGlass (Mat4.translation ⟨0, 0, -1⟩) 1⟩] := by
  constructor <;>
  norm_num [collect, exampleWorldTies, collectStep, exampleCamera, exampleGlass,
    Entity.getCamera, Entity.getMeshRenderer, Entity.getLight, makeCommand, insertionSort,
    insertSorted, transparentCompare, commandDistance, cameraForward, exampleCameraRef,
    Mat4.mulVec, Mat4.translation, Mat4.identity, Vec4.add, Vec4.scale, Vec4.dot, Vec4.toVec3,
    Vec4.ofVec3]

/-- A list of two different elements is not a sublist of its reverse. -/
theorem not_sublist_swap {α : Type} (a b : α) (h : a ≠ b) : ¬ [a, b].Sublist [b, a] := by
  intro hs
  have hlen : [a, b] = [b, a] := hs.eq_of_length rfl
  simp only [List.cons.injEq, and_true] at hlen
  exact h hlen.1

/-- The contract of `std::sort` alone does not fix the order of ties: insertion sort from the
back meets the contract, and on the two commands of `exampleWorldTies`, collected with equal
distances in the order mesh 1, mesh 2, it returns mesh 2 before mesh 1. -/
theorem contract_leaves_ties_open :
    ¬ ∀ (stdSort : (RenderCommand → RenderCommand → Bool) →
          List RenderCommand → List RenderCommand), StdSortContract stdSort →
        ∀ (world : World) (camera : ComponentRef CameraComponent),
          (collect world).camera = some camera →
          TiesKeepOrder (cameraForward camera) (collect world).transparentCommands
            (stdSort (transparentCompare (cameraForward camera))
              (collect world).transparentCommands) := by
  intro h
  have hties := h insertionSort insertionSort_contract exampleWorldTies exampleCameraRef
    (by decide)
  rw [exampleWorldTies_sorted.2, exampleWorldTies_sorted.1] at hties
  refine not_sublist_swap _ _ ?_ (hties _ _ ?_ (List.Sublist.refl _))
  · intro heq
    have := congrArg (fun c => c.mesh.handle) heq
    simp [makeCommand] at this
  · norm_num [exampleGlass, makeCommand, commandDistance, cameraForward, exampleCameraRef,
      Mat4.mulVec, Mat4.translation, Mat4.identity, Vec4.add, Vec4.scale, Vec4.dot,
      Vec4.toVec3, Vec4.ofVec3]

/-- What the contract of `std::sort` gives on ties: for every implementation of `std::sort`
that meets its contract, the sorted
transparent list is a permutation of the collected one in which commands of equal distance are
next to each other (every command between two commands of equal distance has that distance);
their relative order is left to the implementation, but the sequence of distances of the sorted
list is the same for every implementation. -/
theorem sort_ties_contiguous (stdSort : (RenderCommand → RenderCommand → Bool) →
    List RenderCommand → List RenderCommand) (hsort : StdSortContract stdSort)
    (cameraForward : Vec4) (commands : List RenderCommand) :
    (stdSort (transparentCompare cameraForward) commands).Perm commands ∧
    (∀ l1 A l2 B l3,
      stdSort (transparentCompare cameraForward) commands = l1 ++ A :: l2 ++ B :: l3 →
      commandDistance cameraForward A = commandDistance cameraForward B →
      ∀ C ∈ l2, commandDistance cameraForward C = commandDistance cameraForward A) ∧
    ∀ otherSort : (RenderCommand → RenderCommand → Bool) →
        List RenderCommand → List RenderCommand, StdSortContract otherSort →
      (otherSort (transparentCompare cameraForward) commands).map
          (commandDistance cameraForward) =
        (stdSort (transparentCompare cameraForward) commands).map
          (commandDistance cameraForward) := by
  have hkeys : ∀ sort : (RenderCommand → RenderCommand → Bool) →
      List RenderCommand → List RenderCommand, StdSortContract sort →
      (sort (transparentCompare cameraForward) commands).Perm commands ∧
      (sort (transparentCompare cameraForward) commands).Pairwise (fun A B =>
        commandDistance cameraForward A ≥ commandDistance cameraForward B) := by
    intro sort hs
    obtain ⟨hperm, hpair⟩ := hs (transparentCompare cameraForward)
      (transparentCompare_strictWeak cameraForward) commands
    refine ⟨hperm, hpair.imp ?_⟩
    intro A B hAB
    simpa [transparentCompare] using hAB
  obtain ⟨hperm, hpair⟩ := hkeys stdSort hsort
  refine ⟨hperm, ?_, ?_⟩
  · intro l1 A l2 B l3 heq hAB C hC
    rw [heq, List.append_assoc, List.pairwise_append] at hpair
    have hA := hpair.2.1
    rw [List.cons_append, List.pairwise_cons] at hA
    have hAC := hA.1 C (List.mem_append_left _ hC)
    have hCB : commandDistance cameraForward C ≥ commandDistance cameraForward B := by
      have h2 := hA.2
      rw [List.pairwise_append] at h2
      exact h2.2.2 C hC B (List.mem_cons_self _ _)
    rw [← hAB] at hCB
    exact le_antisymm hAC hCB
  · intro otherSort hother
    obtain ⟨hperm2, hpair2⟩ := hkeys otherSort hother
    have hp : ((otherSort (transparentCompare cameraForward) commands).map
        (commandDistance cameraForward)).Perm
        ((stdSort (transparentCompare cameraForward) commands).map
          (commandDistance cameraForward)) :=
      (hperm2.trans hperm.symm).map _
    refine @List.Perm.eq_of_sorted Scalar (fun a b => a ≥ b) _ _ ?_
      (List.pairwise_map.mpr hpair2) (List.pairwise_map.mpr hpair) hp
    intro a b _ _ hab hba
    exact le_antisymm hba hab

/-- Insertion sort on the two equal-distance commands of `exampleWorldTies`. -/
theorem sort_ties_contiguous_witness :
    StdSortContract (insertionSort : (RenderCommand → RenderCommand → Bool) →
      List RenderCommand → List RenderCommand) ∧
    (insertionSort (transparentCompare (cameraForward exampleCameraRef))
        (collect exampleWorldTies).transparentCommands).Perm
      (collect exampleWorldTies).transparentCommands :=
  ⟨insertionSort_contract,
    (sort_ties_contiguous insertionSort insertionSort_contract (cameraForward exampleCameraRef)
      (collect exampleWorldTies).transparentCommands).1⟩

/-! ## Order of the draws -/

/-- A setup of `material`, uniform settings on its shader and a draw of `mesh` form a block. -/
theorem isDrawBlock_intro (material : Material) (mesh : Mesh) (uniforms : List GLCall)
    (h : ∀ u ∈ uniforms, u.isSetOn material.shader = true) :
    isDrawBlock material mesh
      (GLCall.materialSetup material :: (uniforms ++ [GLCall.meshDraw mesh])) = true := by
  simp only [isDrawBlock, List.getLast?_concat, List.dropLast_concat, decide_True, Bool.true_and,
    List.all_eq_true]
  exact h

/-- A block holds one mesh draw, that of its mesh, and no clear. -/
theorem isDrawBlock_filter (material : Material) (mesh : Mesh) (block : List GLCall)
    (h : isDrawBlock material mesh block = true) :
    block.filter (fun c => c.isClear || c.isMeshDraw) = [GLCall.meshDraw mesh] := by
  unfold isDrawBlock at h
  split at h
  · rename_i m rest
    simp only [Bool.and_eq_true, decide_eq_true_eq, List.all_eq_true] at h
    obtain ⟨⟨_, hlast⟩, hall⟩ := h
    have hrest := List.dropLast_append_getLast? (GLCall.meshDraw mesh) (by rw [hlast]; rfl)
    have hnone : rest.dropLast.filter (fun c => c.isClear || c.isMeshDraw) = [] := by
      rw [List.filter_eq_nil_iff]
      intro c hc
      have := hall c hc
      cases c <;> simp_all [GLCall.isSetOn, GLCall.isClear, GLCall.isMeshDraw]
    rw [← hrest, List.filter_cons, List.filter_append, hnone]
    rfl
  · cases h

/-- The calls of a light loop all set uniforms of the given shader. -/
theorem lightUniforms_isSetOn (shader : ShaderProgram)
    (lights : List (ComponentRef LightComponent)) (is : List Nat) (calls : List GLCall)
    (h : lightUniforms shader lights is = some calls) :
    ∀ c ∈ calls, c.isSetOn shader = true := by
  induction is generalizing calls with
  | nil =>
    simp only [lightUniforms, Option.some.injEq] at h
    subst h
    simp
  | cons i is ih =>
    unfold lightUniforms at h
    split at h
    · cases h
    · split at h
      · cases h
      · rename_i rest hrest
        simp only [Option.some.injEq] at h
        subst h
        intro c hc
        rcases List.mem_append.mp hc with hc | hc
        · simp only [List.mem_cons, List.mem_singleton, List.not_mem_nil, or_false] at hc
          rcases hc with rfl | rfl | rfl | rfl | rfl | rfl | rfl <;> simp [GLCall.isSetOn]
        · exact ih rest hrest c hc

/-- The calls of the draw of one command form the block of its material and mesh. -/
theorem drawCommand_block (VP : Mat4) (cameraForward : Vec4) (numLights : Int)
    (lights : List (ComponentRef LightComponent)) (command : RenderCommand)
    (calls : List GLCall)
    (h : drawCommand VP cameraForward numLights lights command = some calls) :
    isDrawBlock command.material command.mesh calls = true := by
  cases hlit : command.material.lit with
  | false =>
    simp only [drawCommand, hlit, Bool.false_eq_true, if_false, Option.some.injEq] at h
    subst h
    exact isDrawBlock_intro command.material command.mesh [_] (by simp [GLCall.isSetOn])
  | true =>
    cases hl : lightUniforms command.material.shader lights (List.range numLights.toNat) with
    | none => simp [drawCommand, hlit, hl] at h
    | some perLight =>
      rw [drawCommand_lit VP cameraForward numLights lights command hlit perLight hl,
        Option.some.injEq] at h
      subst h
      have hper := lightUniforms_isSetOn _ _ _ _ hl
      rw [List.cons_append, List.cons_append]
      refine isDrawBlock_intro command.material command.mesh _ ?_
      intro u hu
      rcases List.mem_append.mp hu with hu | hu
      · simp only [List.mem_cons, List.mem_singleton, List.not_mem_nil, or_false] at hu
        rcases hu with rfl | rfl | rfl | rfl | rfl | rfl | rfl | rfl <;> simp [GLCall.isSetOn]
      · exact hper u hu

/-- The calls of a draw loop are one block per command, in the order of the commands. -/
theorem drawCommands_blocks (VP : Mat4) (cameraForward : Vec4) (numLights : Int)
    (lights : List (ComponentRef LightComponent)) (commands : List RenderCommand)
    (calls : List GLCall)
    (h : drawCommands VP cameraForward numLights lights commands = some calls) :
    ∃ blocks : List (List GLCall), calls = blocks.flatten ∧
      List.Forall₂ (fun (item : Material × Mesh) block => isDrawBlock item.1 item.2 block = true)
        (commands.map (fun c => (c.material, c.mesh))) blocks := by
  induction commands generalizing calls with
  | nil =>
    simp only [drawCommands, Option.some.injEq] at h
    subst h
    exact ⟨[], rfl, List.Forall₂.nil⟩
  | cons command rest ih =>
    unfold drawCommands at h
    split at h
    · cases h
    · rename_i first hfirst
      split at h
      · cases h
      · rename_i more hmore
        simp only [Option.some.injEq] at h
        subst h
        obtain ⟨blocks, hflat, hall⟩ := ih more hmore
        refine ⟨first :: blocks, by rw [List.flatten_cons, hflat], ?_⟩
        exact List.Forall₂.cons
          (drawCommand_block VP cameraForward numLights lights command first hfirst) hall

/-- Two lists of blocks, one after the other. -/
theorem forall₂_append_blocks {items1 items2 : List (Material × Mesh)}
    {blocks1 blocks2 : List (List GLCall)}
    (h1 : List.Forall₂ (fun (item : Material × Mesh) block =>
      isDrawBlock item.1 item.2 block = true) items1 blocks1)
    (h2 : List.Forall₂ (fun (item : Material × Mesh) block =>
      isDrawBlock item.1 item.2 block = true) items2 blocks2) :
    List.Forall₂ (fun (item : Material × Mesh) block => isDrawBlock item.1 item.2 block = true)
      (items1 ++ items2) (blocks1 ++ blocks2) := by
  induction h1 with
  | nil => exact h2
  | cons hab _ ih => exact List.Forall₂.cons hab ih

/-- The scene passes are one block per drawn object, in the order of `drawItems`. -/
theorem scenePasses_blocks (r : ForwardRenderer) (camera : ComponentRef CameraComponent)
    (scene : List GLCall) (h : scenePasses r camera = some scene) :
    ∃ blocks : List (List GLCall), scene = blocks.flatten ∧
      List.Forall₂ (fun (item : Material × Mesh) block => isDrawBlock item.1 item.2 block = true)
        (drawItems r) blocks := by
  unfold scenePasses at h
  dsimp only at h
  split at h
  · cases h
  · rename_i opaqueCalls hopaque
    split at h
    · cases h
    · rename_i transparentCalls htransparent
      simp only [Option.some.injEq] at h
      subst h
      obtain ⟨b1, hb1, hall1⟩ := drawCommands_blocks _ _ _ _ _ _ hopaque
      obtain ⟨b3, hb3, hall3⟩ := drawCommands_blocks _ _ _ _ _ _ htransparent
      have hsky : ∃ b2 : List (List GLCall), skyPass r camera = b2.flatten ∧
          List.Forall₂ (fun (item : Material × Mesh) block =>
            isDrawBlock item.1 item.2 block = true)
            (r.skyMaterial.toList.map (fun m => (m, r.skySphere))) b2 := by
        unfold skyPass
        cases hm : r.skyMaterial with
        | none => exact ⟨[], rfl, List.Forall₂.nil⟩
        | some m =>
          refine ⟨[_], (List.append_nil _).symm, List.Forall₂.cons ?_ List.Forall₂.nil⟩
          exact isDrawBlock_intro m r.skySphere [_] (by simp [GLCall.isSetOn])
      obtain ⟨b2, hb2, hall2⟩ := hsky
      refine ⟨b1 ++ b2 ++ b3, ?_, ?_⟩
      · rw [List.flatten_append, List.flatten_append, ← hb1, ← hb2, ← hb3]
      · exact forall₂_append_blocks (forall₂_append_blocks hall1 hall2) hall3

/-- The mesh draws of a sequence of blocks are the draws of their meshes, in order, and there
is no clear among the blocks. -/
theorem blocks_filter (items : List (Material × Mesh)) (blocks : List (List GLCall))
    (h : List.Forall₂ (fun (item : Material × Mesh) block =>
      isDrawBlock item.1 item.2 block = true) items blocks) :
    blocks.flatten.filter (fun c => c.isClear || c.isMeshDraw) =
      items.map (fun item => GLCall.meshDraw item.2) := by
  induction h with
  | nil => rfl
  | cons hab _ ih =>
    rw [List.flatten_cons, List.filter_append, ih, isDrawBlock_filter _ _ _ hab]
    rfl

/-- The crash and boost branches issue no clear and no mesh draw. -/
theorem postprocess_filter (r : ForwardRenderer) :
    ((crashPass r).2 ++ (boostPass (crashPass r).1).2).filter
      (fun c => c.isClear || c.isMeshDraw) = [] := by
  have hcrash : (crashPass r).2.filter (fun c => c.isClear || c.isMeshDraw) = [] := by
    unfold crashPass
    cases r.crashingEffect <;> cases r.postprocessMaterial <;> rfl
  have hboost : ∀ q : ForwardRenderer,
      (boostPass q).2.filter (fun c => c.isClear || c.isMeshDraw) = [] := by
    intro q
    unfold boostPass
    split
    · cases q.postprocessMaterial <;> rfl
    · rfl
  rw [List.filter_append, hcrash, hboost]
  rfl

/-- The prelude holds one clear and no mesh draw. -/
theorem framePrelude_filter (r : ForwardRenderer) :
    (framePrelude r).filter (fun c => c.isClear || c.isMeshDraw) =
      [GLCall.clear (GL_COLOR_BUFFER_BIT ||| GL_DEPTH_BUFFER_BIT)] := by
  rw [framePrelude_eq]
  cases r.offscreen <;> rfl

/-- C12, as stated, fails on its last part: in the render of the example world the call right
before each mesh draw is the setting of the `transform` uniform, not a material setup. -/
theorem draw_not_right_after_setup :
    (ForwardRenderer.render insertionSort {} exampleWorld).map
      (fun result => setupBeforeDraws none result.2) = some false := by
  norm_num [ForwardRenderer.render, scenePasses, drawCommands, drawCommand, skyPass,
    framePrelude, crashPass, boostPass, collect, exampleWorld, collectStep, exampleCamera,
    exampleGlass, Entity.getCamera, Entity.getMeshRenderer, Entity.getLight, makeCommand,
    insertionSort, insertSorted, transparentCompare, commandDistance, cameraForward,
    Mat4.mulVec, Mat4.translation, Mat4.identity, Vec4.add, Vec4.scale, Vec4.dot, Vec4.toVec3,
    Vec4.ofVec3, setupBeforeDraws, GLCall.isMeshDraw]

/-- C12, amended: for every world with a camera, `render` returns; its calls are the prelude
with the single clear, then one block per drawn object, then the post-process calls. The blocks
follow the opaque commands in collection order, then the sky sphere exactly when a sky material
exists (that is, when `sky` was configured at `initialize`), then the transparent commands in
sorted order. Each block is the setup of the object-s own material, then only uniform settings
on the shader of that material, then the draw of its mesh. The mesh draws number
`|opaque| + (1 if sky) + |transparent|`. -/
theorem render_draw_order (stdSort : (RenderCommand → RenderCommand → Bool) →
    List RenderCommand → List RenderCommand) (hsort : StdSortContract stdSort)
    (r : ForwardRenderer) (world : World) (camera : ComponentRef CameraComponent)
    (hc : (collect world).camera = some camera) :
    (∃ r1 calls post, ∃ blocks : List (List GLCall),
      r.render stdSort world = some (r1, calls) ∧
      calls = framePrelude r ++ blocks.flatten ++ post ∧
      List.Forall₂ (fun (item : Material × Mesh) block => isDrawBlock item.1 item.2 block = true)
        ((collect world).opaqueCommands.map (fun c => (c.material, c.mesh)) ++
          r.skyMaterial.toList.map (fun m => (m, r.skySphere)) ++
          (stdSort (transparentCompare (cameraForward camera))
            (collect world).transparentCommands).map (fun c => (c.material, c.mesh)))
        blocks ∧
      calls.filter (fun c => c.isClear || c.isMeshDraw) =
        GLCall.clear (GL_COLOR_BUFFER_BIT ||| GL_DEPTH_BUFFER_BIT) ::
          ((collect world).opaqueCommands.map (fun c => GLCall.meshDraw c.mesh) ++
            r.skyMaterial.toList.map (fun _ => GLCall.meshDraw r.skySphere) ++
            (stdSort (transparentCompare (cameraForward camera))
              (collect world).transparentCommands).map (fun c => GLCall.meshDraw c.mesh)) ∧
      (calls.filter GLCall.isMeshDraw).length =
        (collect world).opaqueCommands.length + (if r.skyMaterial.isSome then 1 else 0) +
          (collect world).transparentCommands.length) ∧
    ∀ (res : Resources) (windowSize : Int × Int) (config : Config),
      ( ForwardRenderer.initialize {} res windowSize config).skyMaterial.isSome =
        config.sky.isSome := by
  constructor
  · obtain ⟨scene, hscene, _, hrender⟩ := render_eq stdSort r world camera hc
    obtain ⟨blocks, hflat, hall⟩ := scenePasses_blocks _ camera scene hscene
    have hfilter := blocks_filter _ blocks hall
    have hpost := postprocess_filter (r.prepared stdSort world camera)
    have hperm := (hsort (transparentCompare (cameraForward camera))
      (transparentCompare_strictWeak (cameraForward camera))
      (collect world).transparentCommands).1
    have hcalls : (framePrelude r ++ blocks.flatten ++
        ((crashPass (r.prepared stdSort world camera)).2 ++
          (boostPass (crashPass (r.prepared stdSort world camera)).1).2)).filter
          (fun c => c.isClear || c.isMeshDraw) =
        GLCall.clear (GL_COLOR_BUFFER_BIT ||| GL_DEPTH_BUFFER_BIT) ::
          ((collect world).opaqueCommands.map (fun c => GLCall.meshDraw c.mesh) ++
            r.skyMaterial.toList.map (fun _ => GLCall.meshDraw r.skySphere) ++
            (stdSort (transparentCompare (cameraForward camera))
              (collect world).transparentCommands).map (fun c => GLCall.meshDraw c.mesh)) := by
      rw [List.filter_append, List.filter_append, framePrelude_filter, hfilter, hpost,
        List.append_nil]
      simp only [drawItems, ForwardRenderer.prepared, List.map_append, List.map_map,
        List.singleton_append]
      rfl
    have hitems : drawItems (r.prepared stdSort world camera) =
        (collect world).opaqueCommands.map (fun c => (c.material, c.mesh)) ++
          r.skyMaterial.toList.map (fun m => (m, r.skySphere)) ++
          (stdSort (transparentCompare (cameraForward camera))
            (collect world).transparentCommands).map (fun c => (c.material, c.mesh)) := rfl
    rw [hitems] at hall
    refine ⟨(boostPass (crashPass (r.prepared stdSort world camera)).1).1,
      framePrelude r ++ blocks.flatten ++
        ((crashPass (r.prepared stdSort world camera)).2 ++
          (boostPass (crashPass (r.prepared stdSort world camera)).1).2),
      (crashPass (r.prepared stdSort world camera)).2 ++
        (boostPass (crashPass (r.prepared stdSort world camera)).1).2, blocks, ?_, rfl, hall,
      hcalls, ?_⟩
    · rw [hrender, hflat, List.append_assoc (framePrelude _ ++ blocks.flatten)]
      rfl
    · have hsub : ∀ l : List GLCall, l.filter GLCall.isMeshDraw =
          (l.filter (fun c => c.isClear || c.isMeshDraw)).filter GLCall.isMeshDraw := by
        intro l
        rw [List.filter_filter]
        congr 1
        funext c
        cases c <;> rfl
      rw [hsub, hcalls]
      have hlen := hperm.length_eq
      cases hsky : r.skyMaterial with
      | none =>
        simp [List.filter_cons, List.filter_append, List.filter_map, GLCall.isMeshDraw,
          Function.comp_def, hlen]
      | some m =>
        simp [List.filter_cons, List.filter_append, List.filter_map, GLCall.isMeshDraw,
          Function.comp_def, hlen]
        omega
  · intro res windowSize config
    cases hs : config.sky <;> cases hp : config.postprocess <;>
      cases he : config.energyPostProcess <;>
      simp [hs, hp, he, ForwardRenderer.initialize]

/-- C12, witness: the example world drawn with a sky: the clear, then the sky sphere, then the
two transparent objects, farthest first. -/
theorem render_draw_order_witness :
    ∃ r1 calls,
      ( ForwardRenderer.initialize {} exampleResources (800, 600)
        { sky := some "sky.jpg" }).render insertionSort exampleWorld = some (r1, calls) ∧
      calls.filter (fun c => c.isClear || c.isMeshDraw) =
        [GLCall.clear (GL_COLOR_BUFFER_BIT ||| GL_DEPTH_BUFFER_BIT), GLCall.meshDraw ⟨100⟩,
          GLCall.meshDraw ⟨2⟩, GLCall.meshDraw ⟨1⟩] := by
  obtain ⟨⟨r1, calls, _, _, h1, _, _, h2, _⟩, _⟩ :=
    render_draw_order insertionSort insertionSort_contract
      ( ForwardRenderer.initialize {} exampleResources (800, 600) { sky := some "sky.jpg" })
      exampleWorld exampleCameraRef (by decide)
  refine ⟨r1, calls, h1, ?_⟩
  rw [h2]
  norm_num [exampleResources, ForwardRenderer.initialize, collect, exampleWorld, collectStep,
    exampleCamera, exampleGlass, Entity.getCamera, Entity.getMeshRenderer, Entity.getLight,
    makeCommand, insertionSort, insertSorted, transparentCompare, commandDistance,
    cameraForward, exampleCameraRef, Mat4.mulVec, Mat4.translation, Mat4.identity, Vec4.add,
    Vec4.scale, Vec4.dot, Vec4.toVec3, Vec4.ofVec3]

/-! ## Ties under GNU `std::sort` -/

namespace gnu


/-- A strict weak ordering is asymmetric. -/
theorem strictWeak_asymm {α : Type} {comp : α → α → Bool} (h : StrictWeak comp) {a b : α}
    (hab : comp a b = true) : comp b a = false := by
  cases hba : comp b a with
  | false => rfl
  | true =>
    have := h.2.1 a b a hab hba
    rw [h.1 a] at this
    cases this

/-- A strict weak ordering is negatively transitive: an element before `b` and not before `c`
puts `c` before `b`. -/
theorem strictWeak_neg_trans {α : Type} {comp : α → α → Bool} (h : StrictWeak comp) {a b c : α}
    (hab : comp a b = true) (hac : comp a c = false) : comp c b = true := by
  cases hcb : comp c b with
  | true => rfl
  | false =>
    cases hca : comp c a with
    | true =>
      have := h.2.1 c a b hca hab
      rw [hcb] at this
      cases this
    | false =>
      have hbc : comp b c = false := by
        cases hbc : comp b c with
        | false => rfl
        | true =>
          have := h.2.1 a b c hab hbc
          rw [hac] at this
          cases this
      have := (h.2.2 a c b hac hca hcb hbc).1
      rw [hab] at this
      cases this

/-- Reading the position right after a prefix. -/
theorem getElem?_at {α : Type} (P S : List α) (h : α) (n : Nat) (hn : n = P.length) :
    (P ++ h :: S)[n]? = some h := by
  subst hn
  rw [List.getElem?_append_right (le_refl _)]
  simp

/-- Writing the position right after a prefix. -/
theorem write_at {α : Type} (P S : List α) (h v : α) (n : Nat) (hn : n = P.length) :
    write (P ++ h :: S) n v = some (P ++ v :: S) := by
  subst hn
  simp [write]

/-- The loop of `std::__unguarded_linear_insert` started right after `Q ++ l :: P2`, where `val`
compares before every element of `P2` and not before `l`: the elements of `P2` move up by one
and `val` lands right after `l`. -/
theorem unguarded_linear_insert_spec {α : Type} (comp : α → α → Bool) (val : α)
    (Q : List α) (l : α) (hl : comp val l = false) (P2 : List α) :
    ∀ (h : α) (S : List α), (∀ x ∈ P2, comp val x = true) →
      unguarded_linear_insert comp val (Q.length + 1 + P2.length) (Q ++ l :: (P2 ++ h :: S)) =
        some (Q ++ l :: val :: (P2 ++ S)) := by
  induction P2 using List.reverseRecOn with
  | nil =>
    intro h S _
    have h1 : (Q ++ l :: ([] ++ h :: S))[Q.length]? = some l :=
      getElem?_at Q (h :: S) l _ rfl
    have h2 : write (Q ++ l :: ([] ++ h :: S)) (Q.length + 1) val =
        some (Q ++ l :: val :: ([] ++ S)) := by
      have e : Q ++ l :: ([] ++ h :: S) = (Q ++ [l]) ++ h :: S := by simp
      rw [e, write_at (Q ++ [l]) S h val _ (by simp)]
      simp
    simp only [List.length_nil, Nat.add_zero, unguarded_linear_insert, h1, hl, h2]
    simp
  | append_singleton P2 x ih =>
    intro h S hP2
    have hx : comp val x = true := hP2 x (by simp)
    have hlen : Q.length + 1 + (P2 ++ [x]).length = (Q.length + 1 + P2.length) + 1 := by
      rw [List.length_append, List.length_singleton]
      omega
    have e : Q ++ l :: ((P2 ++ [x]) ++ h :: S) = (Q ++ l :: P2) ++ x :: (h :: S) := by simp
    have h1 : (Q ++ l :: ((P2 ++ [x]) ++ h :: S))[Q.length + 1 + P2.length]? = some x := by
      rw [e]
      exact getElem?_at _ _ _ _ (by simp; omega)
    have h2 : write (Q ++ l :: ((P2 ++ [x]) ++ h :: S)) (Q.length + 1 + P2.length + 1) x =
        some (Q ++ l :: (P2 ++ x :: (x :: S))) := by
      have e2 : Q ++ l :: ((P2 ++ [x]) ++ h :: S) = (Q ++ l :: (P2 ++ [x])) ++ h :: S := by simp
      rw [e2, write_at _ S h x _ (by simp; omega)]
      simp
    rw [hlen]
    simp only [unguarded_linear_insert, h1, hx, h2, if_true]
    rw [ih x (x :: S) (fun y hy => hP2 y (by simp [hy]))]
    simp


/-- A list with an element that `val` does not compare before splits at the last such
element. -/
theorem split_last_false {α : Type} (comp : α → α → Bool) (val : α) (P : List α) :
    (∃ x ∈ P, comp val x = false) →
    ∃ Q l P2, P = Q ++ l :: P2 ∧ comp val l = false ∧ ∀ x ∈ P2, comp val x = true := by
  induction P using List.reverseRecOn with
  | nil => rintro ⟨x, hx, _⟩; cases hx
  | append_singleton P x ih =>
    rintro ⟨y, hy, hval⟩
    cases hx : comp val x with
    | false => exact ⟨P, x, [], rfl, hx, by simp⟩
    | true =>
      have hyP : y ∈ P := by
        rcases List.mem_append.mp hy with h | h
        · exact h
        · simp only [List.mem_singleton] at h
          subst h
          rw [hx] at hval
          cases hval
      obtain ⟨Q, l, P2, hP, hl, hP2⟩ := ih ⟨y, hyP, hval⟩
      refine ⟨Q, l, P2 ++ [x], by simp [hP], hl, ?_⟩
      intro z hz
      rcases List.mem_append.mp hz with h | h
      · exact hP2 z h
      · simp only [List.mem_singleton] at h
        subst h
        exact hx

/-- One iteration of `std::__insertion_sort` on a sorted prefix followed by `val`: the prefix
splits into the elements `val` does not compare before and those it compares before, and `val`
is put between them. -/
theorem insertion_sort_step_spec {α : Type} (comp : α → α → Bool) (hcomp : StrictWeak comp)
    (head : α) (T S : List α) (val : α)
    (hsorted : (head :: T).Pairwise (fun x y => comp y x = false)) :
    ∃ P1 P2, head :: T = P1 ++ P2 ∧ (∀ x ∈ P1, comp val x = false) ∧
      (∀ x ∈ P2, comp val x = true) ∧
      insertion_sort_step comp ((head :: T) ++ val :: S) 0 (head :: T).length =
        some (P1 ++ val :: (P2 ++ S)) := by
  have h1 : ((head :: T) ++ val :: S)[(head :: T).length]? = some val :=
    getElem?_at _ _ _ _ rfl
  have h0 : ((head :: T) ++ val :: S)[0]? = some head := by simp
  cases hguard : comp val head with
  | true =>
    refine ⟨[], head :: T, rfl, by simp, ?_, ?_⟩
    · intro x hx
      rcases List.mem_cons.mp hx with rfl | hx
      · exact hguard
      · cases hvx : comp val x with
        | true => rfl
        | false =>
          have h2 := strictWeak_neg_trans hcomp hguard hvx
          have h3 := (List.pairwise_cons.mp hsorted).1 x hx
          rw [h2] at h3
          cases h3
    · simp only [insertion_sort_step, h1, h0, hguard, if_true]
      simp
  | false =>
    obtain ⟨Q, l, P2, hP, hl, hP2⟩ := split_last_false comp val (head :: T)
      ⟨head, List.mem_cons_self _ _, hguard⟩
    refine ⟨Q ++ [l], P2, by simp [hP], ?_, hP2, ?_⟩
    · intro x hx
      rcases List.mem_append.mp hx with hx | hx
      · cases hvx : comp val x with
        | false => rfl
        | true =>
          have h2 := strictWeak_neg_trans hcomp hvx hl
          rw [hP, List.pairwise_append] at hsorted
          have h3 := hsorted.2.2 x hx l (List.mem_cons_self _ _)
          rw [h2] at h3
          cases h3
      · simp only [List.mem_singleton] at hx
        subst hx
        exact hl
    · have hlen : (head :: T).length = Q.length + 1 + P2.length := by
        rw [hP]; simp; omega
      have harr : (head :: T) ++ val :: S = Q ++ l :: (P2 ++ val :: S) := by
        rw [hP]; simp
      simp only [insertion_sort_step, h1, h0, hguard]
      rw [hlen, harr, unguarded_linear_insert_spec comp val Q l hl P2 val S hP2]
      simp

/-- Putting `val` after the elements it does not compare before keeps a stable sort stable. -/
theorem stableSorted_insert {α : Type} (comp : α → α → Bool) (hcomp : StrictWeak comp)
    (orig P1 P2 : List α) (val : α) (h : StableSorted comp orig (P1 ++ P2))
    (h1 : ∀ x ∈ P1, comp val x = false) (h2 : ∀ x ∈ P2, comp val x = true) :
    StableSorted comp (orig ++ [val]) (P1 ++ val :: P2) := by
  obtain ⟨hperm, hpair, hstable⟩ := h
  refine ⟨?_, ?_, ?_⟩
  · exact (List.perm_middle.trans (List.Perm.cons val hperm)).trans
      (List.perm_append_singleton val orig).symm
  · rw [List.pairwise_append] at hpair ⊢
    refine ⟨hpair.1, List.Pairwise.cons ?_ hpair.2.1, ?_⟩
    · intro y hy
      exact strictWeak_asymm hcomp (h2 y hy)
    · intro x hx y hy
      rcases List.mem_cons.mp hy with rfl | hy
      · exact h1 x hx
      · exact hpair.2.2 x hx y hy
  · intro c hc hsub
    obtain ⟨c1, c2, rfl, hc1, hc2⟩ := List.sublist_append_iff.mp hsub
    rw [List.pairwise_append] at hc
    have hc1P := hstable c1 hc.1 hc1
    rcases List.sublist_singleton.mp hc2 with rfl | rfl
    · rw [List.append_nil]
      exact hc1P.trans (List.Sublist.append (List.Sublist.refl P1) (List.sublist_cons_self val P2))
    · have hall : ∀ x ∈ c1, comp val x = false := fun x hx =>
        hc.2.2 x hx val (List.mem_singleton_self val)
      have hfilter := hc1P.filter (fun x => !comp val x)
      have e1 : c1.filter (fun x => !comp val x) = c1 := by
        rw [List.filter_eq_self]
        intro x hx
        simp [hall x hx]
      have e2 : (P1 ++ P2).filter (fun x => !comp val x) = P1 := by
        rw [List.filter_append]
        have e3 : P1.filter (fun x => !comp val x) = P1 := by
          rw [List.filter_eq_self]
          intro x hx
          simp [h1 x hx]
        have e4 : P2.filter (fun x => !comp val x) = [] := by
          rw [List.filter_eq_nil_iff]
          intro x hx
          simp [h2 x hx]
        rw [e3, e4, List.append_nil]
      rw [e1, e2] at hfilter
      exact List.Sublist.append hfilter
        ((List.Sublist.refl [val]).trans (List.Sublist.cons₂ val (List.nil_sublist P2)))

/-- The loop of `std::__insertion_sort` from a stably sorted prefix sorts the whole array
stably. -/
theorem insertion_sort_loop_spec {α : Type} (comp : α → α → Bool) (hcomp : StrictWeak comp)
    (S : List α) :
    ∀ (head : α) (T orig : List α), StableSorted comp orig (head :: T) →
      ∃ Q, insertion_sort_loop comp 0 S.length ((head :: T) ++ S) (head :: T).length = some Q ∧
        StableSorted comp (orig ++ S) Q := by
  induction S with
  | nil =>
    intro head T orig h
    exact ⟨head :: T, by simp [insertion_sort_loop], by simpa using h⟩
  | cons val S ih =>
    intro head T orig h
    obtain ⟨P1, P2, hP, h1, h2, hstep⟩ :=
      insertion_sort_step_spec comp hcomp head T S val h.2.1
    have hnext := stableSorted_insert comp hcomp orig P1 P2 val (hP ▸ h) h1 h2
    have hlen : (P1 ++ val :: P2).length = (head :: T).length + 1 := by
      rw [hP]; simp; omega
    cases hP' : P1 ++ val :: P2 with
    | nil => simp at hP'
    | cons head' T' =>
      rw [hP'] at hnext hlen
      obtain ⟨Q, hQ, hstableQ⟩ := ih head' T' (orig ++ [val]) hnext
      refine ⟨Q, ?_, by simpa using hstableQ⟩
      have harr : P1 ++ val :: (P2 ++ S) = (head' :: T') ++ S := by
        rw [← hP']; simp
      simp only [List.length_cons, insertion_sort_loop] at hQ ⊢
      simp only [List.length_cons] at hstep hlen
      rw [hstep, harr]
      simpa [hlen] using hQ

/-- On at most 16 elements GNU `std::sort` returns, and its result is a stable sort: the
introsort loop does nothing and the final pass is `std::__insertion_sort`. -/
theorem sort_small {α : Type} (comp : α → α → Bool) (hcomp : StrictWeak comp) (a : List α)
    (h : a.length ≤ 16) : ∃ sorted, sort comp a = some sorted ∧ StableSorted comp a sorted := by
  cases a with
  | nil => exact ⟨[], rfl, List.Perm.refl _, List.Pairwise.nil, fun c _ hc => hc⟩
  | cons x S =>
    have hbase : StableSorted comp [x] [x] :=
      ⟨List.Perm.refl _, List.pairwise_singleton _ _, fun c _ hc => hc⟩
    obtain ⟨Q, hQ, hstable⟩ := insertion_sort_loop_spec comp hcomp S x [] [x] hbase
    refine ⟨Q, ?_, by simpa using hstable⟩
    have hlen : ¬ (x :: S).length - 0 > 16 := by simpa using h
    have hne : (x :: S).length ≠ 0 := by simp
    have h0 : ¬ 0 = (x :: S).length := by simp
    simp only [sort, hne, if_false, introsort_loop, hlen, final_insertion_sort, insertion_sort,
      h0]
    simpa using hQ

end gnu

/-- With a camera in the world, `render` returns and leaves in `transparentCommands` the list
its sort step produced from the collected transparent commands. -/
theorem render_transparentCommands (stdSort : (RenderCommand → RenderCommand → Bool) →
    List RenderCommand → List RenderCommand) (r : ForwardRenderer) (world : World)
    (camera : ComponentRef CameraComponent) (hc : (collect world).camera = some camera) :
    ∃ r1 calls, r.render stdSort world = some (r1, calls) ∧
      r1.transparentCommands =
        stdSort (transparentCompare (cameraForward camera))
          (collect world).transparentCommands := by
  obtain ⟨scene, _, _, hrender⟩ := render_eq stdSort r world camera hc
  refine ⟨_, _, hrender, ?_⟩
  rw [(postprocess_keeps _).2.2.2.1, (postprocess_keeps _).1]
  rfl

/-- C13, as stated, fails: the seventeen transparent commands of `exampleWorldManyTies` are
collected with mesh handles 1 to 17 and all have the distance 2; GNU `std::sort` with the
comparator of `render` returns them in the order 9, 17, 16, ..., 10, 1, 8, ..., 2, so mesh 9
comes before mesh 1, which was collected before it with the same distance; a render call whose
`std::sort` returns that list leaves it in `transparentCommands`. -/
theorem sort_ties_not_stable :
    (collect exampleWorldManyTies).transparentCommands =
      (List.range 17).map (fun i => exampleTieCommand (i + 1)) ∧
    (∀ c ∈ (collect exampleWorldManyTies).transparentCommands,
      commandDistance (cameraForward exampleCameraRef) c = 2) ∧
    gnu.sort (transparentCompare (cameraForward exampleCameraRef))
        (collect exampleWorldManyTies).transparentCommands =
      some ([9, 17, 16, 15, 14, 13, 12, 11, 10, 1, 8, 7, 6, 5, 4, 3, 2].map
        exampleTieCommand) ∧
    ¬ TiesKeepOrder (cameraForward exampleCameraRef)
        (collect exampleWorldManyTies).transparentCommands
        ([9, 17, 16, 15, 14, 13, 12, 11, 10, 1, 8, 7, 6, 5, 4, 3, 2].map exampleTieCommand) ∧
    ∀ (stdSort : (RenderCommand → RenderCommand → Bool) →
        List RenderCommand → List RenderCommand) (r : ForwardRenderer),
      some (stdSort (transparentCompare (cameraForward exampleCameraRef))
          (collect exampleWorldManyTies).transparentCommands) =
        gnu.sort (transparentCompare (cameraForward exampleCameraRef))
          (collect exampleWorldManyTies).transparentCommands →
      ∃ r1 calls, r.render stdSort exampleWorldManyTies = some (r1, calls) ∧
        r1.transparentCommands =
          [9, 17, 16, 15, 14, 13, 12, 11, 10, 1, 8, 7, 6, 5, 4, 3, 2].map exampleTieCommand := by
  have hsort : gnu.sort (transparentCompare (cameraForward exampleCameraRef))
      (collect exampleWorldManyTies).transparentCommands =
      some ([9, 17, 16, 15, 14, 13, 12, 11, 10, 1, 8, 7, 6, 5, 4, 3, 2].map
        exampleTieCommand) := by decide!
  refine ⟨by decide!, by decide!, hsort, ?_, ?_⟩
  · intro h
    have hsub := h (exampleTieCommand 1) (exampleTieCommand 9) (by decide!) (by decide!)
    revert hsub
    decide!
  · intro stdSort r hstd
    obtain ⟨r1, calls, hrender, hlist⟩ :=
      render_transparentCommands stdSort r exampleWorldManyTies exampleCameraRef (by decide)
    rw [hsort, Option.some.injEq] at hstd
    exact ⟨r1, calls, hrender, hlist.trans hstd⟩

/-- C13, amended: for a world with a camera whose collected transparent list has at most 16
commands, the transparency sort (GNU `std::sort` with the comparator of `render`) returns, and
its result is a permutation of the collected list in descending order of distance in which
commands of equal distance are left in encountered order: if `A` is collected before `B` and
both have the same distance, `A` is before `B` in the sorted list. A render call whose
`std::sort` returns that list leaves it in `transparentCommands`. -/
theorem sort_ties_stable_small (r : ForwardRenderer) (world : World)
    (camera : ComponentRef CameraComponent) (hc : (collect world).camera = some camera)
    (h : (collect world).transparentCommands.length ≤ 16) :
    ∃ sorted, gnu.sort (transparentCompare (cameraForward camera))
        (collect world).transparentCommands = some sorted ∧
      sorted.Perm (collect world).transparentCommands ∧
      sorted.Pairwise (fun A B =>
        commandDistance (cameraForward camera) A ≥ commandDistance (cameraForward camera) B) ∧
      TiesKeepOrder (cameraForward camera) (collect world).transparentCommands sorted ∧
      ∀ stdSort : (RenderCommand → RenderCommand → Bool) →
          List RenderCommand → List RenderCommand,
        stdSort (transparentCompare (cameraForward camera))
          (collect world).transparentCommands = sorted →
        ∃ r1 calls, r.render stdSort world = some (r1, calls) ∧
          r1.transparentCommands = sorted := by
  obtain ⟨sorted, hsort, hperm, hpair, hstable⟩ :=
    gnu.sort_small (transparentCompare (cameraForward camera))
      (transparentCompare_strictWeak (cameraForward camera))
      (collect world).transparentCommands h
  refine ⟨sorted, hsort, hperm, hpair.imp ?_, ?_, ?_⟩
  · intro A B hAB
    simpa [transparentCompare] using hAB
  · intro A B hkey hsub
    refine hstable [A, B] ?_ hsub
    simp [transparentCompare, hkey]
  · intro stdSort hstd
    obtain ⟨r1, calls, hrender, hlist⟩ := render_transparentCommands stdSort r world camera hc
    exact ⟨r1, calls, hrender, hlist.trans hstd⟩

/-- C13, witness: the two commands of `exampleWorldTies`, collected with equal distances in the
order mesh 1, mesh 2, are left in that order. -/
theorem sort_ties_stable_small_witness :
    (collect exampleWorldTies).transparentCommands.length ≤ 16 ∧
    (∃ sorted, gnu.sort (transparentCompare (cameraForward exampleCameraRef))
        (collect exampleWorldTies).transparentCommands = some sorted ∧
      TiesKeepOrder (cameraForward exampleCameraRef)
        (collect exampleWorldTies).transparentCommands sorted) ∧
    (gnu.sort (transparentCompare (cameraForward exampleCameraRef))
        (collect exampleWorldTies).transparentCommands).map
        (fun sorted => sorted.map (fun c => c.mesh.handle)) = some [1, 2] := by
  obtain ⟨sorted, h1, _, _, h2, _⟩ := sort_ties_stable_small {} exampleWorldTies
    exampleCameraRef (by decide) (by decide)
  exact ⟨by decide, ⟨sorted, h1, h2⟩, by decide!⟩

end our
